import Mathlib

/-!
# gpupgrade: version parsing and the upgrade compatibility gate

A shallow embedding of `greenplum/version.go` and
`greenplum/allowed_gpdb_versions.go`.

Conventions of the embedding:

* a Go `string` holding text is a Lean `String`; the text-processing helpers of
  the Go standard library work on its list of characters (`List Char`), so the
  embedding covers strings that are valid UTF-8;
* a Go `error` is `Option String`: `none` is `nil`, `some msg` is an error whose
  `Error()` text is `msg`;
* `uint64` fields are `Nat`, the Go `int` behind `DatabaseType` is `Int`;
* a Go function that may panic returns an `Outcome`;
* what the Go libraries compute from Unicode tables is a parameter: the
  rendering of `%q` (`Fmt`) and the lower-casing above ASCII (`CaseTable`).
-/

/-! ## Go runtime: outcomes, formatting, `strings`, `strconv`, `regexp` -/

/-- The result of running a Go function that may panic: it returns `v`, or the
goroutine panics with a run-time error. -/
inductive Outcome (α : Type) where
  | returned (v : α)
  | panicked (msg : String)
deriving DecidableEq, Repr

/-- Renderings of the Go formatting libraries that the embedding takes as given:
`quote s` is the text the verb `%q` produces for the string `s`
(`strconv.Quote`), and `nilW` is the text `xerrors.Errorf` produces for the verb
`%w` when its operand is the nil error. -/
structure Fmt where
  quote : String → String
  nilW : String

namespace strings

/-- Go `unicode.IsSpace`: the Latin-1 white space characters and the code points
of the Unicode `White_Space` property above Latin-1. -/
def isSpace (c : Char) : Bool :=
  let n := c.toNat
  n = 0x09 || n = 0x0A || n = 0x0B || n = 0x0C || n = 0x0D || n = 0x20 ||
  n = 0x85 || n = 0xA0 || n = 0x1680 || (0x2000 ≤ n && n ≤ 0x200A) ||
  n = 0x2028 || n = 0x2029 || n = 0x202F || n = 0x205F || n = 0x3000

/-- Go `strings.TrimSpace`: leading and trailing white space removed. -/
def TrimSpace (s : List Char) : List Char :=
  List.rdropWhile isSpace (List.dropWhile isSpace s)

/-- Go `strings.Index`: the position of the first occurrence of `sep` in `s`,
`none` standing for `-1`. -/
def Index : List Char → List Char → Option Nat
  | [], sep => if sep.isEmpty then some 0 else none
  | c :: cs, sep =>
    if sep.isPrefixOf (c :: cs) then some 0 else (Index cs sep).map (· + 1)

/-- Go `strings.Contains`: `Index(s, substr) >= 0`. -/
def Contains (s substr : List Char) : Bool :=
  (Index s substr).isSome

/-- Go `strings.SplitN(s, sep, n)` for a non-empty `sep` and `n >= 0`: at most
`n` pieces, split at the first occurrences of `sep`, the last piece being the
unsplit remainder; `n = 0` gives no piece. -/
def SplitN (s sep : List Char) : Nat → List (List Char)
  | 0 => []
  | 1 => [s]
  | n + 2 =>
    match Index s sep with
    | none => [s]
    | some i => s.take i :: SplitN (s.drop (i + sep.length)) sep (n + 1)

/-- Go `strings.Split(s, sep)` for a non-empty `sep`: all pieces. It is
`SplitN` with a count above the number of separators, of which there are at
most `len(s)`. -/
def Split (s sep : List Char) : List (List Char) :=
  SplitN s sep (s.length + 1)

end strings

namespace strconv

/-- The value of a string of decimal digits. -/
def decimal (s : List Char) : Nat :=
  s.foldl (fun acc c => acc * 10 + (c.toNat - '0'.toNat)) 0

/-- The two failures of `strconv.ParseUint`: `invalid` is `ErrSyntax`,
`outOfRange` is `ErrRange`. -/
inductive NumError where
  | invalid
  | outOfRange
deriving DecidableEq, Repr

/-- Go `strconv.ParseUint(s, 10, 64)`: the empty string and any character that
is not a decimal digit give a syntax error, a value of `2^64` or more a range
error. -/
def ParseUint (s : List Char) : Except NumError Nat :=
  if s = [] then .error .invalid
  else if !s.all Char.isDigit then .error .invalid
  else if decimal s < 2 ^ 64 then .ok (decimal s)
  else .error .outOfRange

/-- The `Error()` text of the `*strconv.NumError` that `ParseUint(s, 10, 64)`
returns. -/
def NumError.Error (q : Fmt) (s : List Char) : NumError → String
  | .invalid => "strconv.ParseUint: parsing " ++ q.quote (String.mk s) ++ ": invalid syntax"
  | .outOfRange =>
    "strconv.ParseUint: parsing " ++ q.quote (String.mk s) ++ ": value out of range"

end strconv

namespace regexp

/-- A match of the pattern `\d+\.\d+\.\d+` that starts at the first character
of `s`. `\d` is an ASCII digit. A run `\d+` must be followed by `.`, which is
no digit, so in any match the first two runs are the maximal digit runs; the
last `\d+` is greedy, so it is the maximal run too. -/
def matchTripleAt (s : List Char) : Option (List Char) :=
  let a := s.takeWhile Char.isDigit
  if a = [] then none else
  match s.dropWhile Char.isDigit with
  | [] => none
  | d1 :: s1 =>
    if d1 ≠ '.' then none else
    let b := s1.takeWhile Char.isDigit
    if b = [] then none else
    match s1.dropWhile Char.isDigit with
    | [] => none
    | d2 :: s2 =>
      if d2 ≠ '.' then none else
      let c := s2.takeWhile Char.isDigit
      if c = [] then none else some (a ++ '.' :: b ++ '.' :: c)

/-- The first element of `regexp.MustCompile("\\d+\\.\\d+\\.\\d+").FindStringSubmatch(s)`:
the leftmost match, `none` when the result is `nil`. The pattern has no
capture group, so a non-nil result has exactly this one element. -/
def FindTriple : List Char → Option (List Char)
  | [] => none
  | c :: cs =>
    match matchTripleAt (c :: cs) with
    | some m => some m
    | none => FindTriple cs

end regexp

/-! ## github.com/blang/semver/v4 (imported package) -/

namespace semver

/-- Go `semver.PRVersion`: one pre-release identifier, numeric or alphanumeric. -/
structure PRVersion where
  VersionStr : String
  VersionNum : Nat
  IsNum : Bool
deriving DecidableEq, Repr

/-- Go `semver.Version`. The zero value `semver.Version{}` is `0.0.0` with no
pre-release identifiers and no build metadata. -/
structure Version where
  Major : Nat
  Minor : Nat
  Patch : Nat
  Pre : List PRVersion
  Build : List String
deriving DecidableEq, Repr

/-- Go `PRVersion.Compare`: numeric identifiers sort below alphanumeric ones,
two numeric ones by value, two alphanumeric ones as strings. -/
def PRVersion.Compare (v o : PRVersion) : Int :=
  if v.IsNum && !o.IsNum then -1
  else if !v.IsNum && o.IsNum then 1
  else if v.IsNum && o.IsNum then
    if v.VersionNum = o.VersionNum then 0
    else if v.VersionNum > o.VersionNum then 1
    else -1
  else
    if v.VersionStr = o.VersionStr then 0
    else if v.VersionStr > o.VersionStr then 1
    else -1

/-- The loop of `Version.Compare` over the two pre-release lists, entered only
when both are non-empty: the first differing identifier decides, and when one
list is a proper initial segment of the other the longer one is greater. -/
def comparePre : List PRVersion → List PRVersion → Int
  | [], [] => 0
  | [], _ :: _ => -1
  | _ :: _, [] => 1
  | a :: as, b :: bs =>
    if a.Compare b = 0 then comparePre as bs
    else if a.Compare b = 1 then 1
    else -1

/-- Go `Version.Compare`: `-1`, `0` or `1`. Major, minor and patch are compared
first; on a tie a version without pre-release identifiers is greater than one
with them. Build metadata is ignored. -/
def Version.Compare (v o : Version) : Int :=
  if v.Major ≠ o.Major then
    if v.Major > o.Major then 1 else -1
  else if v.Minor ≠ o.Minor then
    if v.Minor > o.Minor then 1 else -1
  else if v.Patch ≠ o.Patch then
    if v.Patch > o.Patch then 1 else -1
  else if v.Pre.length = 0 ∧ o.Pre.length = 0 then 0
  else if v.Pre.length = 0 ∧ o.Pre.length > 0 then 1
  else if v.Pre.length > 0 ∧ o.Pre.length = 0 then -1
  else comparePre v.Pre o.Pre

/-- Go `PRVersion.String`. -/
def PRVersion.String (v : PRVersion) : String :=
  if v.IsNum then toString v.VersionNum else v.VersionStr

/-- Go `Version.String`: `major.minor.patch`, then `-` and the pre-release
identifiers joined by dots, then `+` and the build identifiers joined by dots. -/
def Version.String (v : Version) : String :=
  let b := toString v.Major ++ "." ++ toString v.Minor ++ "." ++ toString v.Patch
  let b := match v.Pre with
    | [] => b
    | p :: ps => ps.foldl (fun acc pre => acc ++ "." ++ pre.String) (b ++ "-" ++ p.String)
  match v.Build with
  | [] => b
  | x :: xs => xs.foldl (fun acc build => acc ++ "." ++ build) (b ++ "+" ++ x)

/-- Go `semver.Range`: a predicate on versions. -/
abbrev Range := Version → Bool

/-- The range `semver.MustParseRange(">=" + lo + " <" + hi)` for version
literals `lo` and `hi`: the conjunction (`Range.AND`) of the comparator
`v.Compare(lo) >= 0` and the comparator `v.Compare(hi) < 0`. -/
def geLtRange (lo hi : Version) : Range :=
  fun v => decide (v.Compare lo ≥ 0) && decide (v.Compare hi < 0)

/-- The character set `numbers` of the package. -/
def numbers : List Char := "0123456789".data

/-- The character set `alphanum` of the package: letters, `-` and digits. -/
def alphanum : List Char :=
  "abcdefghijklmnopqrstuvwxyzABCDEFGHIJKLMNOPQRSTUVWXYZ-".data ++ numbers

/-- Go `containsOnly(s, set)`: every character of `s` is in `set`. -/
def containsOnly (s set : List Char) : Bool :=
  s.all (fun c => set.contains c)

/-- Go `hasLeadingZeroes(s)`: `len(s) > 1 && s[0] == '0'`. -/
def hasLeadingZeroes (s : List Char) : Bool :=
  match s with
  | c :: _ :: _ => c = '0'
  | _ => false

/-- The numeric fields of `Parse`: digits only, no leading zero, then
`strconv.ParseUint`. `what` is the word of the error text (`major`, `minor`,
`patch`), `What` its capitalised form. -/
def parseNumber (q : Fmt) (what What : String) (s : List Char) : Except String Nat :=
  if !containsOnly s numbers then
    .error ("Invalid character(s) found in " ++ what ++ " number " ++ q.quote (String.mk s))
  else if hasLeadingZeroes s then
    .error (What ++ " number must not contain leading zeroes " ++ q.quote (String.mk s))
  else
    match strconv.ParseUint s with
    | .error e => .error (e.Error q s)
    | .ok n => .ok n

/-- Go `semver.NewPRVersion`. -/
def NewPRVersion (q : Fmt) (s : List Char) : Except String PRVersion :=
  if s.length = 0 then .error "Prerelease is empty"
  else if containsOnly s numbers then
    if hasLeadingZeroes s then
      .error ("Numeric PreRelease version must not contain leading zeroes " ++
        q.quote (String.mk s))
    else
      match strconv.ParseUint s with
      | .error e => .error (e.Error q s)
      | .ok num => .ok ⟨"", num, true⟩
  else if containsOnly s alphanum then .ok ⟨String.mk s, 0, false⟩
  else .error ("Invalid character(s) found in prerelease " ++ q.quote (String.mk s))

/-- The loop of `Parse` over the pre-release identifiers. -/
def parsePre (q : Fmt) : List (List Char) → Except String (List PRVersion)
  | [] => .ok []
  | prstr :: more =>
    match NewPRVersion q prstr with
    | .error e => .error e
    | .ok parsedPR =>
      match parsePre q more with
      | .error e => .error e
      | .ok rest => .ok (parsedPR :: rest)

/-- The loop of `Parse` over the build identifiers. -/
def parseBuild (q : Fmt) : List (List Char) → Except String (List String)
  | [] => .ok []
  | str :: more =>
    if str.length = 0 then .error "Build meta data is empty"
    else if !containsOnly str alphanum then
      .error ("Invalid character(s) found in build meta data " ++ q.quote (String.mk str))
    else
      match parseBuild q more with
      | .error e => .error e
      | .ok rest => .ok (String.mk str :: rest)

/-- Go `semver.Parse`: the strict parser. The string is split at the first two
dots; major and minor are numbers; the third piece is the patch number,
optionally followed by `-` and dot-separated pre-release identifiers, and by
`+` and dot-separated build identifiers. -/
def Parse (q : Fmt) (s : List Char) : Except String Version :=
  if s.length = 0 then .error "Version string empty" else
  match strings.SplitN s ['.'] 3 with
  | [p0, p1, p2] =>
    match parseNumber q "major" "Major" p0 with
    | .error e => .error e
    | .ok major =>
    match parseNumber q "minor" "Minor" p1 with
    | .error e => .error e
    | .ok minor =>
    let (build, patchStr) :=
      match strings.Index p2 ['+'] with
      | some buildIndex => (strings.Split (p2.drop (buildIndex + 1)) ['.'], p2.take buildIndex)
      | none => ([], p2)
    let (prerelease, patchStr) :=
      match strings.Index patchStr ['-'] with
      | some preIndex =>
        (strings.Split (patchStr.drop (preIndex + 1)) ['.'], patchStr.take preIndex)
      | none => ([], patchStr)
    match parseNumber q "patch" "Patch" patchStr with
    | .error e => .error e
    | .ok patch =>
    match parsePre q prerelease with
    | .error e => .error e
    | .ok pre =>
    match parseBuild q build with
    | .error e => .error e
    | .ok bld => .ok ⟨major, minor, patch, pre, bld⟩
  | _ => .error "No Major.Minor.Patch elements found"

end semver

/-! ## package greenplum -/

namespace greenplum

/-- Go `error`: `none` is `nil`, `some msg` an error with text `msg`. -/
abbrev error := Option String

/-- Go `type DatabaseType int`. -/
abbrev DatabaseType := Int

/-- Constant `Greenplum DatabaseType = iota`. -/
def Greenplum : DatabaseType := 0

/-- Constant `Cloudberry`, the second `iota` value. -/
def Cloudberry : DatabaseType := 1

/-- Go `DatabaseVersion`. -/
structure DatabaseVersion where
  Databasetype : DatabaseType
  Version : semver.Version
deriving DecidableEq, Repr

/-- Method `DatabaseVersion.String`: `fmt.Sprintf("%s %s", dbTypeName, dv.Version.String())`. -/
def DatabaseVersion.String (dv : DatabaseVersion) : String :=
  let dbTypeName :=
    if dv.Databasetype = Greenplum then "Greenplum"
    else if dv.Databasetype = Cloudberry then "Cloudberry"
    else "Unknown"
  dbTypeName ++ " " ++ dv.Version.String

/-- Constant `minGreenplum5xVersion`. -/
def minGreenplum5xVersion : String := "5.29.10"

/-- Constant `minGreenplum6xVersion`. -/
def minGreenplum6xVersion : String := "6.0.0"

/-- Constant `minGreenplum7xVersion`. -/
def minGreenplum7xVersion : String := "7.0.0"

/-- A plain `major.minor.patch` version, the value the range parser obtains from
a literal such as `"5.29.10"`. -/
def plain (major minor patch : Nat) : semver.Version :=
  ⟨major, minor, patch, [], []⟩

/-- The four locals that the `switch` of `validate` assigns. -/
structure Selected where
  sourceRange : semver.Range
  targetRange : semver.Range
  minSourceVersion : String
  minTargetVersion : String

/-- The `switch` of `validate` (lines 39-65): the ranges and floors of the
selected major transition, or `none` for the `default` case. -/
def selectTransition (sourceMajor targetMajor : Nat) : Option Selected :=
  if sourceMajor = 5 ∧ targetMajor = 6 then
    some ⟨semver.geLtRange (plain 5 29 10) (plain 6 0 0),
          semver.geLtRange (plain 6 0 0) (plain 7 0 0),
          minGreenplum5xVersion, minGreenplum6xVersion⟩
  else if sourceMajor = 6 ∧ targetMajor = 6 then
    some ⟨semver.geLtRange (plain 6 0 0) (plain 7 0 0),
          semver.geLtRange (plain 6 0 0) (plain 7 0 0),
          minGreenplum6xVersion, minGreenplum6xVersion⟩
  else if sourceMajor = 6 ∧ targetMajor = 7 then
    some ⟨semver.geLtRange (plain 6 0 0) (plain 7 0 0),
          semver.geLtRange (plain 7 0 0) (plain 8 0 0),
          minGreenplum6xVersion, minGreenplum7xVersion⟩
  else if sourceMajor = 7 ∧ targetMajor = 7 then
    some ⟨semver.geLtRange (plain 7 0 0) (plain 8 0 0),
          semver.geLtRange (plain 7 0 0) (plain 8 0 0),
          minGreenplum7xVersion, minGreenplum7xVersion⟩
  else none

/-- Function `validate` of `allowed_gpdb_versions.go`. Both range tests are
applied to `sourceVersion.Version`, as lines 67 and 73 do. -/
def validate (sourceVersion targetVersion : DatabaseVersion) : error :=
  if sourceVersion.Databasetype = Greenplum ∧ targetVersion.Databasetype = Greenplum then
    match selectTransition sourceVersion.Version.Major targetVersion.Version.Major with
    | none =>
      some ("Unsupported source and target versions. " ++
        "Found source version " ++ sourceVersion.String ++
        " and target version " ++ targetVersion.String ++ ". " ++
        "Upgrade is only supported for Greenplum 5 to 6, Greenplum 6 to 7" ++
        "Check the documentation for further information.")
    | some sel =>
      if !sel.sourceRange sourceVersion.Version then
        some ("Source cluster version " ++ sourceVersion.String ++ " is not supported. " ++
          "The minimum required version is " ++ sel.minSourceVersion ++ ". " ++
          "We recommend the latest version.")
      else if !sel.targetRange sourceVersion.Version then
        some ("Target cluster version " ++ targetVersion.String ++ " is not supported. " ++
          "The minimum required version is " ++ sel.minTargetVersion ++ ". " ++
          "We recommend the latest version.")
      else none
  else if sourceVersion.Databasetype = Cloudberry ∧ targetVersion.Databasetype = Cloudberry then
    if sourceVersion.Version.Major > targetVersion.Version.Major then
      some ("Unsupported source and target versions. " ++
        "TargetVersion " ++ toString targetVersion.Version.Major ++
        " must larger than sourceVersion " ++ toString sourceVersion.Version.Major)
    else none
  else if sourceVersion.Databasetype = Greenplum ∧ targetVersion.Databasetype = Cloudberry then
    some ("Unsupported source and target versions. " ++
      "Upgrade from " ++ sourceVersion.String ++ " to " ++ targetVersion.String ++
      " is not supported now")
  else if sourceVersion.Databasetype = Cloudberry ∧ targetVersion.Databasetype = Greenplum then
    some ("Unsupported source and target versions. " ++
      "Cannot upgrade from Cloudberry to Greenplum")
  else
    some ("Unsupported source and target versions. " ++
      "Upgrade from " ++ targetVersion.String ++ " to " ++ sourceVersion.String ++
      " is not supported. " ++
      "Check the documentation for further information.")

/-- What `Version` obtains from the external command: the text of
`cmd.String()` and the two results of `cmd.CombinedOutput()`. -/
structure CommandRun where
  cmdString : String
  output : String
  err : error

/-- The value `DatabaseVersion{-1, semver.Version{}}` that `Version` returns
next to an error. -/
def sentinel : DatabaseVersion := ⟨-1, ⟨0, 0, 0, [], []⟩⟩

/-- Function `Version` of `version.go`, from the point where the command has
run. The local `branch` is the `if` chain of lines 98-109, `none` being its
final `else`. Each branch tests `strings.Contains` with the marker WITHOUT a trailing
space and splits with the marker WITH a trailing space, as lines 98-106 do;
`parts[1]` is an index expression and panics when the split gave one piece. -/
def Version (q : Fmt) (run : CommandRun) : Outcome (DatabaseVersion × error) :=
  match run.err with
  | some err =>
    .returned (sentinel,
      some (q.quote run.cmdString ++ " failed with " ++ q.quote run.output ++ ": " ++ err))
  | none =>
    let rawVersion := run.output
    let trimmed := strings.TrimSpace rawVersion.data
    let branch : Option (List (List Char) × DatabaseType) :=
      if strings.Contains trimmed "postgres (Greenplum Database)".data then
        some (strings.SplitN trimmed "postgres (Greenplum Database) ".data 2, Greenplum)
      else if strings.Contains trimmed "postgres (Apache Cloudberry)".data then
        some (strings.SplitN trimmed "postgres (Apache Cloudberry) ".data 2, Cloudberry)
      else if strings.Contains trimmed "postgres (Cloudberry Database)".data then
        some (strings.SplitN trimmed "postgres (Cloudberry Database) ".data 2, Cloudberry)
      else none
    match branch with
    | none =>
      .returned (sentinel,
        some ("version " ++ q.quote rawVersion ++
          " is not of the form \"postgres (Greenplum/Cloudberry Database) #.#.#\""))
    | some (parts, databasetype) =>
      match parts.get? 1 with
      | none =>
        .panicked ("runtime error: index out of range [1] with length " ++
          toString parts.length)
      | some after =>
        match regexp.FindTriple after with
        | none =>
          .returned (sentinel,
            some ("parsing Greenplum version " ++ q.quote rawVersion ++ ": " ++ q.nilW))
        | some m =>
          match semver.Parse q m with
          | .error err =>
            .returned (sentinel,
              some ("parsing Greenplum version " ++ q.quote rawVersion ++ ": " ++ err))
          | .ok version => .returned (⟨databasetype, version⟩, none)

/-! ### Vocabulary of the specification -/

/-- One row of the policy table of the specification (section 4.3): a supported
major transition with its source range `[sourceLo, sourceHi)`, its target range
`[targetLo, targetHi)` and the floor named for each side. -/
structure PolicyRow where
  sourceMajor : Nat
  targetMajor : Nat
  sourceLo : semver.Version
  sourceHi : semver.Version
  targetLo : semver.Version
  targetHi : semver.Version
  sourceFloor : String
  targetFloor : String

/-- The policy table of the specification: the transitions `(5,6)`, `(6,6)`,
`(6,7)` and `(7,7)`. -/
def policyTable : List PolicyRow :=
  [ ⟨5, 6, plain 5 29 10, plain 6 0 0, plain 6 0 0, plain 7 0 0, "5.29.10", "6.0.0"⟩,
    ⟨6, 6, plain 6 0 0, plain 7 0 0, plain 6 0 0, plain 7 0 0, "6.0.0", "6.0.0"⟩,
    ⟨6, 7, plain 6 0 0, plain 7 0 0, plain 7 0 0, plain 8 0 0, "6.0.0", "7.0.0"⟩,
    ⟨7, 7, plain 7 0 0, plain 8 0 0, plain 7 0 0, plain 8 0 0, "7.0.0", "7.0.0"⟩ ]

/-- Range membership of the specification: `lo <= v` and `v < hi` in the
semantic-version ordering. -/
def inRange (lo hi v : semver.Version) : Prop :=
  0 ≤ v.Compare lo ∧ v.Compare hi < 0

instance (lo hi v : semver.Version) : Decidable (inRange lo hi v) := by
  unfold inRange; infer_instance

/-- The banner markers of the specification, each ending in a space, in the
order in which `Version` tests them. -/
def bannerMarker : Fin 3 → String
  | 0 => "postgres (Greenplum Database) "
  | 1 => "postgres (Apache Cloudberry) "
  | 2 => "postgres (Cloudberry Database) "

/-- The family that the specification attaches to each banner marker. -/
def bannerFamily : Fin 3 → DatabaseType
  | 0 => Greenplum
  | 1 => Cloudberry
  | 2 => Cloudberry

/-- The text `a.b.c` of a numeric triple written in decimal. -/
def tripleText (a b c : Nat) : List Char :=
  (toString a ++ "." ++ toString b ++ "." ++ toString c).data

/-- The text `X.Y.Z` matches the pattern `\d+\.\d+\.\d+`: three non-empty
runs of ASCII digits separated by dots. -/
def IsTriple (X Y Z : List Char) : Prop :=
  X ≠ [] ∧ Y ≠ [] ∧ Z ≠ [] ∧
  (∀ c ∈ X, c.isDigit = true) ∧ (∀ c ∈ Y, c.isDigit = true) ∧ (∀ c ∈ Z, c.isDigit = true)

/-- A concrete rendering used to evaluate examples: `%q` puts the text between
double quotes, which is what `strconv.Quote` does for text without a character
to escape, and a nil operand of `%w` is rendered as `%!w(<nil>)`. -/
def plainFmt : Fmt :=
  ⟨fun s => "\"" ++ s ++ "\"", "%!w(<nil>)"⟩

/-- The text `msg` contains the text `part` as a contiguous piece. -/
def mentions (msg part : String) : Prop :=
  part.data <:+: msg.data

end greenplum

/-! ## Compact form and the gate: further library functions and definitions -/

/-- The part of Go `unicode.ToLower` that the embedding takes as given: the
lower-case mapping of the characters above ASCII. -/
structure CaseTable where
  lower : Char → Char

namespace strings

/-- Go `strings.TrimPrefix(s, pre)`. -/
def TrimPrefix (s pre : List Char) : List Char :=
  if pre.isPrefixOf s then s.drop pre.length else s

/-- Go `strings.TrimLeft(s, cutset)`: the leading characters that belong to
`cutset` removed. -/
def TrimLeft (s cutset : List Char) : List Char :=
  s.dropWhile (fun c => cutset.contains c)

/-- Go `strings.ContainsAny(s, chars)`. -/
def ContainsAny (s chars : List Char) : Bool :=
  s.any (fun c => chars.contains c)

/-- Go `strings.Join(elems, sep)`. -/
def Join (sep : List Char) : List (List Char) → List Char
  | [] => []
  | [x] => x
  | x :: y :: more => x ++ sep ++ Join sep (y :: more)

/-- Go `len(s)` for a string: the number of bytes of its UTF-8 encoding. -/
def byteLen : List Char → Nat
  | [] => 0
  | c :: cs => c.utf8Size + byteLen cs

/-- Go `unicode.ToLower`: an ASCII capital letter becomes the small letter, any
other ASCII character is unchanged, a character above ASCII is looked up. -/
def toLowerRune (t : CaseTable) (c : Char) : Char :=
  if c.toNat < 128 then c.toLower else t.lower c

/-- Go `strings.ToLower`. -/
def ToLower (t : CaseTable) (s : List Char) : List Char :=
  s.map (toLowerRune t)

end strings

namespace semver

/-- The loop of `ParseTolerant` that removes leading zeros from one piece: a
piece longer than one byte (`len(p) > 1`) loses its leading `0`s, and gets one
`0` back when nothing is left or what is left does not start with a digit. -/
def trimLeadingZeros (p : List Char) : List Char :=
  if strings.byteLen p > 1 then
    let p1 := strings.TrimLeft p ['0']
    if p1.length = 0 || !strings.ContainsAny (p1.take 1) numbers then '0' :: p1 else p1
  else p

/-- The loop `for len(parts) < 3 { parts = append(parts, "0") }`. -/
def fillUp : List (List Char) → List (List Char)
  | [] => [['0'], ['0'], ['0']]
  | [x] => [x, ['0'], ['0']]
  | [x, y] => [x, y, ['0']]
  | parts => parts

/-- Go `semver.ParseTolerant`: the text is trimmed, a leading `v` is removed,
leading zeros are removed from the pieces, a version with fewer than three
pieces is filled up with `0` pieces (unless its last piece has a `+` or `-`),
and the result goes to the strict `Parse`. -/
def ParseTolerant (q : Fmt) (s : List Char) : Except String Version :=
  let s := strings.TrimSpace s
  let s := strings.TrimPrefix s ['v']
  let parts := (strings.SplitN s ['.'] 3).map trimLeadingZeros
  if parts.length < 3 then
    if strings.ContainsAny (parts.getLastD []) ['+', '-'] then
      .error "Short version cannot contain PreRelease/Build meta data"
    else Parse q (strings.Join ['.'] (fillUp parts))
  else Parse q (strings.Join ['.'] parts)

end semver

namespace greenplum

/-- The zero value `DatabaseVersion{}`. -/
def zeroDatabaseVersion : DatabaseVersion := ⟨0, ⟨0, 0, 0, [], []⟩⟩

/-- The `switch` of `ParseDatabaseVersion` (lines 54-61) on the lower-cased
type: two literals per family, `none` for the `default` case. -/
def parseType (lowered : List Char) : Option DatabaseType :=
  if lowered = "Greenplum".data ∨ lowered = "greenplum".data then some Greenplum
  else if lowered = "Cloudberry".data ∨ lowered = "cloudberry".data then some Cloudberry
  else none

/-- Function `ParseDatabaseVersion` of `version.go`. -/
def ParseDatabaseVersion (q : Fmt) (t : CaseTable) (s : String) : DatabaseVersion × error :=
  let s := strings.TrimSpace s.data
  match strings.SplitN s [' '] 2 with
  | [p0, p1] =>
    let typeStr := strings.TrimSpace p0
    match parseType (strings.ToLower t typeStr) with
    | none => (zeroDatabaseVersion, some ("unknown database type: " ++ String.mk typeStr))
    | some ty =>
      let versionStr := strings.TrimSpace p1
      match semver.ParseTolerant q versionStr with
      | .error err =>
        (zeroDatabaseVersion,
          some ("invalid version format " ++ q.quote (String.mk versionStr) ++ ": " ++ err))
      | .ok version => (⟨ty, version⟩, none)
  | _ =>
    (zeroDatabaseVersion,
      some ("invalid database version format: " ++ q.quote (String.mk s) ++
        ", expected 'Type Version'"))

/-- Function `VerifyCompatibleGPDBVersions` of `allowed_gpdb_versions.go`. The
package variables `GetSourceVersion` and `GetTargetVersion` are parameters; a
retriever returns a value and an error, or panics. -/
def VerifyCompatibleGPDBVersions
    (GetSourceVersion GetTargetVersion : String → Outcome (DatabaseVersion × error))
    (sourceGPHome targetGPHome : String) : Outcome error :=
  match GetSourceVersion sourceGPHome with
  | .panicked msg => .panicked msg
  | .returned (sourceVersion, err) =>
    match err with
    | some e => .returned (some e)
    | none =>
      match GetTargetVersion targetGPHome with
      | .panicked msg => .panicked msg
      | .returned (targetVersion, err) =>
        match err with
        | some e => .returned (some e)
        | none => .returned (validate sourceVersion targetVersion)

/-- A concrete case table used to evaluate examples: every character above
ASCII is its own lower case. -/
def plainCase : CaseTable := ⟨fun c => c⟩

/-- The text `a.b` of two numbers written in decimal. -/
def pairText (a b : Nat) : List Char :=
  (toString a ++ "." ++ toString b).data

/-- The error `e` is not nil and its text starts with `start`. -/
def startsWith (start : String) (e : error) : Prop :=
  ∃ m, e = some m ∧ start.data <+: m.data

end greenplum

/-! ## Auxiliary lemmas -/

namespace greenplum

theorem mentions_mid (a x b : String) : mentions (a ++ x ++ b) x := by
  unfold mentions
  exact ⟨a.data, b.data, by simp [String.data_append]⟩

theorem mentions_end (a x : String) : mentions (a ++ x) x := by
  unfold mentions
  exact ⟨a.data, [], by simp [String.data_append]⟩

theorem mentions_append_right {m x : String} (b : String) (h : mentions m x) :
    mentions (m ++ b) x := by
  unfold mentions at *
  rw [String.data_append]
  exact h.trans (List.infix_append' [] m.data b.data |>.trans (by simp))

theorem geLtRange_eq_true_iff (lo hi v : semver.Version) :
    semver.geLtRange lo hi v = true ↔ inRange lo hi v := by
  simp [semver.geLtRange, inRange]

theorem geLtRange_eq_false_iff (lo hi v : semver.Version) :
    semver.geLtRange lo hi v = false ↔ ¬ inRange lo hi v := by
  rw [← geLtRange_eq_true_iff]; simp

end greenplum

/-! ## The compatibility validator -/

namespace greenplum

/-- C1 (the code departs from the claim): the two admissible transitions the
claim names are rejected. `Greenplum 5.29.10 -> Greenplum 6.0.0` and
`Greenplum 6.3.0 -> Greenplum 7.0.0` lie inside the source and target ranges of
their rows, and `validate` returns the target-floor error for both, because the
target range is tested on the source version. -/
theorem validate_rejects_listed_upgrades :
    inRange (plain 5 29 10) (plain 6 0 0) (plain 5 29 10) ∧
    inRange (plain 6 0 0) (plain 7 0 0) (plain 6 0 0) ∧
    validate ⟨Greenplum, plain 5 29 10⟩ ⟨Greenplum, plain 6 0 0⟩ =
      some ("Target cluster version Greenplum 6.0.0 is not supported. " ++
        "The minimum required version is 6.0.0. We recommend the latest version.") ∧
    inRange (plain 6 0 0) (plain 7 0 0) (plain 6 3 0) ∧
    inRange (plain 7 0 0) (plain 8 0 0) (plain 7 0 0) ∧
    validate ⟨Greenplum, plain 6 3 0⟩ ⟨Greenplum, plain 7 0 0⟩ =
      some ("Target cluster version Greenplum 7.0.0 is not supported. " ++
        "The minimum required version is 7.0.0. We recommend the latest version.") := by
  decide

/-- C2 (the code departs from the claim): what the target floor check of
`validate` tests. For a Greenplum pair in a row of the policy table whose
source version is inside the source range, `validate` returns the
`Target cluster version ... is not supported` error exactly when the SOURCE
version lies outside the target range, and success otherwise; the target
version plays no part in the test. -/
theorem validate_target_check_tests_source (s t : DatabaseVersion) (row : PolicyRow)
    (hs : s.Databasetype = Greenplum) (ht : t.Databasetype = Greenplum)
    (hrow : row ∈ policyTable)
    (hsm : s.Version.Major = row.sourceMajor) (htm : t.Version.Major = row.targetMajor)
    (hin : inRange row.sourceLo row.sourceHi s.Version) :
    (¬ inRange row.targetLo row.targetHi s.Version →
      validate s t = some ("Target cluster version " ++ t.String ++ " is not supported. " ++
        "The minimum required version is " ++ row.targetFloor ++ ". " ++
        "We recommend the latest version.")) ∧
    (inRange row.targetLo row.targetHi s.Version → validate s t = none) := by
  simp only [policyTable, List.mem_cons, List.mem_singleton, List.not_mem_nil, or_false] at hrow
  rcases hrow with rfl | rfl | rfl | rfl <;>
    simp only [] at hsm htm hin ⊢ <;>
    constructor <;> intro hout <;>
    first
    | exact absurd hin hout
    | simp [validate, hs, ht, selectTransition, hsm, htm, geLtRange_eq_false_iff,
        geLtRange_eq_true_iff, hin, hout, minGreenplum6xVersion, minGreenplum7xVersion,
        minGreenplum5xVersion]

/-- Witness of `validate_target_check_tests_source`: `Greenplum 6.3.0 ->
Greenplum 7.0.0`, row `(6,7)`. The target is inside `[7.0.0, 8.0.0)`, the source
is not, and the target error is returned. -/
theorem validate_target_check_tests_source_witness :
    inRange (plain 6 0 0) (plain 7 0 0) (plain 6 3 0) ∧
    inRange (plain 7 0 0) (plain 8 0 0) (plain 7 0 0) ∧
    ¬ inRange (plain 7 0 0) (plain 8 0 0) (plain 6 3 0) ∧
    validate ⟨Greenplum, plain 6 3 0⟩ ⟨Greenplum, plain 7 0 0⟩ =
      some ("Target cluster version " ++
        DatabaseVersion.String ⟨Greenplum, plain 7 0 0⟩ ++ " is not supported. " ++
        "The minimum required version is " ++ "7.0.0" ++ ". " ++
        "We recommend the latest version.") :=
  ⟨by decide, by decide, by decide,
    (validate_target_check_tests_source ⟨Greenplum, plain 6 3 0⟩ ⟨Greenplum, plain 7 0 0⟩
      ⟨6, 7, plain 6 0 0, plain 7 0 0, plain 7 0 0, plain 8 0 0, "6.0.0", "7.0.0"⟩
      rfl rfl (by simp [policyTable]) rfl rfl (by decide)).1 (by decide)⟩

/-- Remark on pre-release identifiers, which `Version` never produces: a direct
call with the target `6.0.0-alpha` selects the row `(6,6)`; the target precedes
`6.0.0`, so it is outside `[6.0.0, 7.0.0)`, and `validate` returns `nil`,
because no range test looks at the target. -/
theorem validate_admits_target_below_floor :
    validate ⟨Greenplum, plain 6 1 0⟩ ⟨Greenplum, ⟨6, 0, 0, [⟨"alpha", 0, false⟩], []⟩⟩ = none ∧
    ¬ inRange (plain 6 0 0) (plain 7 0 0) ⟨6, 0, 0, [⟨"alpha", 0, false⟩], []⟩ := by
  decide

/-- C4: the source floor check. For a Greenplum pair, (1) a source of major 5
below `5.29.10` with a target of major 6 yields the source error naming the
source version and the floor `5.29.10`; (2) in every row of the policy table a
source outside the source range of the row yields the source error naming the
source version and the source floor of the row. -/
theorem validate_source_too_low (s t : DatabaseVersion)
    (hs : s.Databasetype = Greenplum) (ht : t.Databasetype = Greenplum) :
    (s.Version.Major = 5 → t.Version.Major = 6 →
      s.Version.Compare (plain 5 29 10) < 0 →
      validate s t = some ("Source cluster version " ++ s.String ++ " is not supported. " ++
        "The minimum required version is " ++ "5.29.10" ++ ". " ++
        "We recommend the latest version.")) ∧
    (∀ row ∈ policyTable,
      s.Version.Major = row.sourceMajor → t.Version.Major = row.targetMajor →
      ¬ inRange row.sourceLo row.sourceHi s.Version →
      validate s t = some ("Source cluster version " ++ s.String ++ " is not supported. " ++
        "The minimum required version is " ++ row.sourceFloor ++ ". " ++
        "We recommend the latest version.") ∧
      mentions ("Source cluster version " ++ s.String ++ " is not supported. " ++
        "The minimum required version is " ++ row.sourceFloor ++ ". " ++
        "We recommend the latest version.") s.String ∧
      mentions ("Source cluster version " ++ s.String ++ " is not supported. " ++
        "The minimum required version is " ++ row.sourceFloor ++ ". " ++
        "We recommend the latest version.") row.sourceFloor) := by
  have general : ∀ row ∈ policyTable,
      s.Version.Major = row.sourceMajor → t.Version.Major = row.targetMajor →
      ¬ inRange row.sourceLo row.sourceHi s.Version →
      validate s t = some ("Source cluster version " ++ s.String ++ " is not supported. " ++
        "The minimum required version is " ++ row.sourceFloor ++ ". " ++
        "We recommend the latest version.") := by
    intro row hrow hsm htm hout
    simp only [policyTable, List.mem_cons, List.mem_singleton, List.not_mem_nil,
      or_false] at hrow
    rcases hrow with rfl | rfl | rfl | rfl <;>
      simp only [] at hsm htm hout ⊢ <;>
      simp [validate, hs, ht, selectTransition, hsm, htm, geLtRange_eq_false_iff,
        hout, minGreenplum6xVersion, minGreenplum7xVersion, minGreenplum5xVersion]
  refine ⟨fun h5 h6 hlt => ?_, fun row hrow hsm htm hout => ⟨general row hrow hsm htm hout, ?_, ?_⟩⟩
  · refine general ⟨5, 6, plain 5 29 10, plain 6 0 0, plain 6 0 0, plain 7 0 0,
      "5.29.10", "6.0.0"⟩ (by simp [policyTable]) h5 h6 ?_
    intro hin
    have h1 : 0 ≤ s.Version.Compare (plain 5 29 10) := hin.1
    omega
  · exact mentions_append_right _ (mentions_append_right _ (mentions_append_right _
      (mentions_append_right _ (mentions_append_right _ (mentions_end _ _)))))
  · exact mentions_append_right _ (mentions_append_right _ (mentions_end _ _))

/-- Witness of `validate_source_too_low`: `Greenplum 5.29.9 -> Greenplum 6.0.0`
fails with the source error naming `Greenplum 5.29.9` and `5.29.10`. -/
theorem validate_source_too_low_witness :
    (plain 5 29 9).Compare (plain 5 29 10) < 0 ∧
    validate ⟨Greenplum, plain 5 29 9⟩ ⟨Greenplum, plain 6 0 0⟩ =
      some ("Source cluster version " ++
        DatabaseVersion.String ⟨Greenplum, plain 5 29 9⟩ ++ " is not supported. " ++
        "The minimum required version is " ++ "5.29.10" ++ ". " ++
        "We recommend the latest version.") ∧
    DatabaseVersion.String ⟨Greenplum, plain 5 29 9⟩ = "Greenplum 5.29.9" :=
  ⟨by decide,
    (validate_source_too_low ⟨Greenplum, plain 5 29 9⟩ ⟨Greenplum, plain 6 0 0⟩ rfl rfl).1
      rfl rfl (by decide),
    by decide⟩

/-- C5: a Greenplum pair whose majors are none of `(5,6)`, `(6,6)`, `(6,7)`,
`(7,7)` is rejected with the unsupported-transition error, whose text contains
the rendering of the source version and of the target version. -/
theorem validate_unsupported_transition (s t : DatabaseVersion)
    (hs : s.Databasetype = Greenplum) (ht : t.Databasetype = Greenplum)
    (hrow : ∀ row ∈ policyTable,
      ¬ (s.Version.Major = row.sourceMajor ∧ t.Version.Major = row.targetMajor)) :
    validate s t = some ("Unsupported source and target versions. " ++
        "Found source version " ++ s.String ++
        " and target version " ++ t.String ++ ". " ++
        "Upgrade is only supported for Greenplum 5 to 6, Greenplum 6 to 7" ++
        "Check the documentation for further information.") ∧
    mentions ("Unsupported source and target versions. " ++
        "Found source version " ++ s.String ++
        " and target version " ++ t.String ++ ". " ++
        "Upgrade is only supported for Greenplum 5 to 6, Greenplum 6 to 7" ++
        "Check the documentation for further information.") s.String ∧
    mentions ("Unsupported source and target versions. " ++
        "Found source version " ++ s.String ++
        " and target version " ++ t.String ++ ". " ++
        "Upgrade is only supported for Greenplum 5 to 6, Greenplum 6 to 7" ++
        "Check the documentation for further information.") t.String := by
  have h56 := hrow ⟨5, 6, plain 5 29 10, plain 6 0 0, plain 6 0 0, plain 7 0 0,
    "5.29.10", "6.0.0"⟩ (by simp [policyTable])
  have h66 := hrow ⟨6, 6, plain 6 0 0, plain 7 0 0, plain 6 0 0, plain 7 0 0,
    "6.0.0", "6.0.0"⟩ (by simp [policyTable])
  have h67 := hrow ⟨6, 7, plain 6 0 0, plain 7 0 0, plain 7 0 0, plain 8 0 0,
    "6.0.0", "7.0.0"⟩ (by simp [policyTable])
  have h77 := hrow ⟨7, 7, plain 7 0 0, plain 8 0 0, plain 7 0 0, plain 8 0 0,
    "7.0.0", "7.0.0"⟩ (by simp [policyTable])
  simp only [] at h56 h66 h67 h77
  refine ⟨?_, ?_, ?_⟩
  · simp [validate, hs, ht, selectTransition, h56, h66, h67, h77]
  · exact mentions_append_right _ (mentions_append_right _ (mentions_append_right _
      (mentions_append_right _ (mentions_append_right _ (mentions_end _ _)))))
  · exact mentions_append_right _ (mentions_append_right _ (mentions_append_right _
      (mentions_end _ _)))

/-- Witness of `validate_unsupported_transition`: `Greenplum 6.3.0 ->
Greenplum 8.0.0`; the table has no `(6,8)` row. -/
theorem validate_unsupported_transition_witness :
    validate ⟨Greenplum, plain 6 3 0⟩ ⟨Greenplum, plain 8 0 0⟩ =
      some ("Unsupported source and target versions. " ++
        "Found source version " ++ DatabaseVersion.String ⟨Greenplum, plain 6 3 0⟩ ++
        " and target version " ++ DatabaseVersion.String ⟨Greenplum, plain 8 0 0⟩ ++ ". " ++
        "Upgrade is only supported for Greenplum 5 to 6, Greenplum 6 to 7" ++
        "Check the documentation for further information.") :=
  (validate_unsupported_transition ⟨Greenplum, plain 6 3 0⟩ ⟨Greenplum, plain 8 0 0⟩ rfl rfl
    (by simp [policyTable, plain])).1

/-- C6: for a Cloudberry pair `validate` succeeds exactly when
`target.major >= source.major`, whatever the minor and patch components, the
pre-release identifiers and the build metadata; otherwise it returns the
downgrade error. -/
theorem validate_cloudberry (s t : DatabaseVersion)
    (hs : s.Databasetype = Cloudberry) (ht : t.Databasetype = Cloudberry) :
    (validate s t = none ↔ t.Version.Major ≥ s.Version.Major) ∧
    (t.Version.Major < s.Version.Major →
      validate s t = some ("Unsupported source and target versions. " ++
        "TargetVersion " ++ toString t.Version.Major ++
        " must larger than sourceVersion " ++ toString s.Version.Major)) := by
  have hne : Cloudberry ≠ Greenplum := by decide
  constructor
  · by_cases h : s.Version.Major > t.Version.Major
    · simp [validate, hs, ht, hne, h]
    · simp [validate, hs, ht, hne, h]
      omega
  · intro h
    simp [validate, hs, ht, hne, h]

/-- Witness of `validate_cloudberry`: `Cloudberry 1.0.0 -> Cloudberry 2.0.0`
succeeds and `Cloudberry 2.0.0 -> Cloudberry 1.0.0` fails with the downgrade
error. -/
theorem validate_cloudberry_witness :
    validate ⟨Cloudberry, plain 1 0 0⟩ ⟨Cloudberry, plain 2 0 0⟩ = none ∧
    validate ⟨Cloudberry, plain 2 0 0⟩ ⟨Cloudberry, plain 1 0 0⟩ =
      some ("Unsupported source and target versions. " ++
        "TargetVersion " ++ toString (plain 1 0 0).Major ++
        " must larger than sourceVersion " ++ toString (plain 2 0 0).Major) :=
  ⟨(validate_cloudberry ⟨Cloudberry, plain 1 0 0⟩ ⟨Cloudberry, plain 2 0 0⟩ rfl rfl).1.2
      (by decide),
    (validate_cloudberry ⟨Cloudberry, plain 2 0 0⟩ ⟨Cloudberry, plain 1 0 0⟩ rfl rfl).2
      (by decide)⟩

/-- C7: cross-family pairs are rejected whatever the versions. A Greenplum
source with a Cloudberry target gets the `Upgrade from ... to ... is not
supported now` error, a Cloudberry source with a Greenplum target the `Cannot
upgrade from Cloudberry to Greenplum` error. -/
theorem validate_cross_family (s t : DatabaseVersion) :
    (s.Databasetype = Greenplum → t.Databasetype = Cloudberry →
      validate s t = some ("Unsupported source and target versions. " ++
        "Upgrade from " ++ s.String ++ " to " ++ t.String ++ " is not supported now")) ∧
    (s.Databasetype = Cloudberry → t.Databasetype = Greenplum →
      validate s t = some ("Unsupported source and target versions. " ++
        "Cannot upgrade from Cloudberry to Greenplum")) := by
  have hne : Cloudberry ≠ Greenplum := by decide
  constructor
  · intro hs ht
    simp [validate, hs, ht, hne, hne.symm]
  · intro hs ht
    simp [validate, hs, ht, hne, hne.symm]

/-- Witness of `validate_cross_family`: `Greenplum 6.0.0 -> Cloudberry 6.0.0`
and `Cloudberry 1.0.0 -> Greenplum 7.0.0`. -/
theorem validate_cross_family_witness :
    validate ⟨Greenplum, plain 6 0 0⟩ ⟨Cloudberry, plain 6 0 0⟩ =
      some ("Unsupported source and target versions. " ++
        "Upgrade from " ++ DatabaseVersion.String ⟨Greenplum, plain 6 0 0⟩ ++ " to " ++
        DatabaseVersion.String ⟨Cloudberry, plain 6 0 0⟩ ++ " is not supported now") ∧
    validate ⟨Cloudberry, plain 1 0 0⟩ ⟨Greenplum, plain 7 0 0⟩ =
      some ("Unsupported source and target versions. " ++
        "Cannot upgrade from Cloudberry to Greenplum") :=
  ⟨(validate_cross_family ⟨Greenplum, plain 6 0 0⟩ ⟨Cloudberry, plain 6 0 0⟩).1 rfl rfl,
    (validate_cross_family ⟨Cloudberry, plain 1 0 0⟩ ⟨Greenplum, plain 7 0 0⟩).2 rfl rfl⟩

/-- C8: when the family of the source or of the target is neither `Greenplum`
nor `Cloudberry`, `validate` returns the unsupported-family-combination error
(the last branch), whatever the other family and the versions. -/
theorem validate_unknown_family (s t : DatabaseVersion)
    (h : (s.Databasetype ≠ Greenplum ∧ s.Databasetype ≠ Cloudberry) ∨
         (t.Databasetype ≠ Greenplum ∧ t.Databasetype ≠ Cloudberry)) :
    validate s t = some ("Unsupported source and target versions. " ++
      "Upgrade from " ++ t.String ++ " to " ++ s.String ++ " is not supported. " ++
      "Check the documentation for further information.") := by
  rcases h with ⟨h1, h2⟩ | ⟨h1, h2⟩ <;> simp [validate, h1, h2]

/-- Witness of `validate_unknown_family`: the sentinel family `-1` as source,
with a Greenplum target. -/
theorem validate_unknown_family_witness :
    validate ⟨-1, plain 0 0 0⟩ ⟨Greenplum, plain 6 0 0⟩ =
      some ("Unsupported source and target versions. " ++
        "Upgrade from " ++ DatabaseVersion.String ⟨Greenplum, plain 6 0 0⟩ ++ " to " ++
        DatabaseVersion.String ⟨-1, plain 0 0 0⟩ ++ " is not supported. " ++
        "Check the documentation for further information.") :=
  validate_unknown_family ⟨-1, plain 0 0 0⟩ ⟨Greenplum, plain 6 0 0⟩
    (Or.inl ⟨by decide, by decide⟩)

end greenplum

/-! ## Decimal numerals -/

namespace strconv

theorem digitChar_isDigit (m : Nat) (h : m < 10) : (Nat.digitChar m).isDigit = true := by
  interval_cases m <;> rfl

theorem digitChar_toNat (m : Nat) (h : m < 10) :
    (Nat.digitChar m).toNat - '0'.toNat = m := by
  interval_cases m <;> rfl

theorem digitChar_eq_zero (m : Nat) (h : m < 10) (h0 : Nat.digitChar m = '0') : m = 0 := by
  interval_cases m <;> first | rfl | (exfalso; revert h0; decide)

theorem decimal_append (xs ys : List Char) :
    decimal (xs ++ ys) =
      ys.foldl (fun acc c => acc * 10 + (c.toNat - '0'.toNat)) (decimal xs) := by
  simp [decimal, List.foldl_append]

/-- The digit loop of `Nat.repr`: with enough fuel it prepends to `ds` the
canonical decimal numeral of `n`. -/
theorem toDigitsCore_spec (fuel : Nat) : ∀ (n : Nat) (ds : List Char), n < fuel →
    ∃ xs : List Char, Nat.toDigitsCore 10 fuel n ds = xs ++ ds ∧ xs ≠ [] ∧
      (∀ c ∈ xs, c.isDigit = true) ∧ decimal xs = n ∧
      (n = 0 → xs = ['0']) ∧ (n ≠ 0 → xs.head? ≠ some '0') := by
  induction fuel with
  | zero => intro n ds h; omega
  | succ fuel ih =>
    intro n ds h
    simp only [Nat.toDigitsCore]
    by_cases h0 : n / 10 = 0
    · have hn : n < 10 := by omega
      have hmod : n % 10 = n := Nat.mod_eq_of_lt hn
      refine ⟨[Nat.digitChar n], by simp [h0, hmod], by simp, ?_, ?_, ?_, ?_⟩
      · intro c hc
        simp only [List.mem_singleton] at hc
        subst hc
        exact digitChar_isDigit n hn
      · have := digitChar_toNat n hn
        simpa [decimal] using this
      · intro hz; subst hz; rfl
      · intro hnz hhead
        simp only [List.head?_cons, Option.some.injEq] at hhead
        exact hnz (digitChar_eq_zero n hn hhead)
    · have hlt : n / 10 < fuel := by omega
      obtain ⟨xs, hxs, hne, hdig, hval, _, hhead⟩ :=
        ih (n / 10) (Nat.digitChar (n % 10) :: ds) hlt
      have hm : n % 10 < 10 := Nat.mod_lt _ (by decide)
      refine ⟨xs ++ [Nat.digitChar (n % 10)], by simp [h0, hxs], by simp, ?_, ?_, ?_, ?_⟩
      · intro c hc
        rcases List.mem_append.1 hc with hc | hc
        · exact hdig c hc
        · simp only [List.mem_singleton] at hc
          subst hc
          exact digitChar_isDigit _ hm
      · rw [decimal_append, hval]
        simp only [List.foldl_cons, List.foldl_nil, digitChar_toNat _ hm]
        omega
      · intro hz; subst hz; simp at h0
      · intro _
        cases xs with
        | nil => exact absurd rfl hne
        | cons x xs' => simpa using hhead h0

/-- The decimal numeral `toString n`: non-empty, digits only, of value `n`, and
`0` is its first character only when `n = 0`. -/
theorem repr_spec (n : Nat) :
    (toString n).data ≠ [] ∧ (∀ c ∈ (toString n).data, c.isDigit = true) ∧
      decimal (toString n).data = n ∧
      (n = 0 → (toString n).data = ['0']) ∧
      (n ≠ 0 → (toString n).data.head? ≠ some '0') := by
  obtain ⟨xs, hxs, hne, hdig, hval, hz, hhead⟩ := toDigitsCore_spec (n + 1) n [] (by omega)
  have hdata : (toString n).data = xs := by
    show (Nat.repr n).data = xs
    simp [Nat.repr, Nat.toDigits, hxs, List.asString]
  rw [hdata]
  exact ⟨hne, hdig, hval, hz, hhead⟩

end strconv

/-! ## Searching, splitting and trimming -/

namespace strings

theorem Index_cons (c : Char) (cs sep : List Char) :
    Index (c :: cs) sep =
      if sep.isPrefixOf (c :: cs) then some 0 else (Index cs sep).map (· + 1) := by
  rw [Index]

theorem Index_append_of_isPrefixOf (sep w : List Char) (hsep : sep ≠ []) :
    Index (sep ++ w) sep = some 0 := by
  cases sep with
  | nil => exact absurd rfl hsep
  | cons c cs =>
    have h : (c :: cs).isPrefixOf (c :: (cs ++ w)) = true := by
      rw [List.isPrefixOf_iff_prefix]
      exact ⟨w, rfl⟩
    rw [List.cons_append, Index_cons, if_pos h]

/-- `Index` finds the first occurrence: when `sep` occurs in `u ++ sep` only at
the end, its position in `u ++ sep ++ w` is `len(u)`. -/
theorem Index_first (sep : List Char) (hsep : sep ≠ []) :
    ∀ (u w : List Char), (∀ u' w', u ++ sep = u' ++ sep ++ w' → w' = []) →
      Index (u ++ sep ++ w) sep = some u.length := by
  intro u
  induction u with
  | nil =>
    intro w _
    simpa using Index_append_of_isPrefixOf sep w hsep
  | cons c u ih =>
    intro w h
    have hnot : ¬ sep.isPrefixOf (c :: (u ++ sep ++ w)) = true := by
      intro hp
      rw [List.isPrefixOf_iff_prefix] at hp
      have hp2 : (c :: u) ++ sep <+: c :: (u ++ sep ++ w) := ⟨w, by simp⟩
      have hle : sep.length ≤ ((c :: u) ++ sep).length := by
        simp only [List.length_append, List.length_cons]; omega
      obtain ⟨w', hw'⟩ := List.prefix_of_prefix_length_le hp hp2 hle
      have hnil := h [] w' (by simpa using hw'.symm)
      subst hnil
      have hlen := congrArg List.length hw'
      simp only [List.append_nil, List.length_append, List.length_cons] at hlen
      omega
    have hrec := ih w (fun u' w' e => h (c :: u') w' (by simp [e]))
    have e : c :: u ++ sep ++ w = c :: (u ++ sep ++ w) := by simp
    rw [e, Index_cons, if_neg hnot, hrec]
    rfl

theorem Contains_iff (sub : List Char) : ∀ s : List Char,
    Contains s sub = true ↔ sub <:+: s := by
  intro s
  induction s with
  | nil =>
    cases sub with
    | nil => simp [Contains, Index]
    | cons c cs => simp [Contains, Index]
  | cons c s ih =>
    unfold Contains at ih ⊢
    by_cases hp : sub.isPrefixOf (c :: s) = true
    · rw [Index_cons, if_pos hp]
      simp only [Option.isSome_some, true_iff]
      exact (List.isPrefixOf_iff_prefix.1 hp).isInfix
    · rw [Index_cons, if_neg hp, Option.isSome_map', ih]
      constructor
      · intro h
        exact h.trans (List.suffix_cons c s).isInfix
      · intro h
        rcases List.infix_cons_iff.1 h with h | h
        · exact absurd (List.isPrefixOf_iff_prefix.2 h) hp
        · exact h

theorem SplitN_two_first (sep : List Char) (hsep : sep ≠ [])
    (u w : List Char) (h : ∀ u' w', u ++ sep = u' ++ sep ++ w' → w' = []) :
    SplitN (u ++ sep ++ w) sep 2 = [u, w] := by
  have hi := Index_first sep hsep u w h
  simp only [SplitN, hi]
  simp [List.take_append_eq_append_take, List.drop_append_eq_append_drop]

theorem dropWhile_append_stop (p : Char → Bool) (y : Char) (ys : List Char) (hy : p y = false) :
    ∀ xs : List Char,
      List.dropWhile p (xs ++ y :: ys) = List.dropWhile p xs ++ y :: ys := by
  intro xs
  induction xs with
  | nil => simp [List.dropWhile, hy]
  | cons x xs ih =>
    by_cases hx : p x = true
    · simp [List.dropWhile, hx, ih]
    · simp [List.dropWhile, hx]

theorem rdropWhile_append_stop (p : Char → Bool) (y : Char) (ys : List Char) (hy : p y = false)
    (xs : List Char) :
    List.rdropWhile p (ys ++ y :: xs) = ys ++ y :: List.rdropWhile p xs := by
  unfold List.rdropWhile
  have h := dropWhile_append_stop p y ys.reverse hy xs.reverse
  simp only [List.reverse_append, List.reverse_cons, List.append_assoc, List.singleton_append]
  rw [h]
  simp

/-- `TrimSpace` on text whose middle part starts and ends with a character that
is no white space: only the outer parts are trimmed. -/
theorem TrimSpace_around (pre rest mid : List Char) (x y : Char)
    (hx : isSpace x = false) (hy : isSpace y = false) :
    TrimSpace (pre ++ x :: (mid ++ y :: rest)) =
      List.dropWhile isSpace pre ++ x :: (mid ++ y :: List.rdropWhile isSpace rest) := by
  unfold TrimSpace
  rw [dropWhile_append_stop isSpace x _ hx pre]
  have e : List.dropWhile isSpace pre ++ x :: (mid ++ y :: rest) =
      (List.dropWhile isSpace pre ++ x :: mid) ++ y :: rest := by simp
  rw [e, rdropWhile_append_stop isSpace y _ hy rest]
  simp

end strings

/-! ## The numeric-triple pattern -/

namespace regexp

theorem takeWhile_run (p : Char → Bool) (w : List Char) (hw : ∀ d ∈ w.head?, p d = false) :
    ∀ A : List Char, (∀ c ∈ A, p c = true) →
      List.takeWhile p (A ++ w) = A ∧ List.dropWhile p (A ++ w) = w := by
  intro A
  induction A with
  | nil =>
    intro _
    cases w with
    | nil => simp
    | cons d w =>
      have hd : p d = false := hw d (by simp)
      simp [List.takeWhile, List.dropWhile, hd]
  | cons a A ih =>
    intro hA
    have ha : p a = true := hA a (by simp)
    have hrest := ih (fun c hc => hA c (List.mem_cons_of_mem a hc))
    simp [List.takeWhile, List.dropWhile, ha, hrest.1, hrest.2]

theorem isDigit_dot : Char.isDigit '.' = false := by decide

/-- At the start of a triple whose last run cannot be extended, the anchored
match is that triple. -/
theorem matchTripleAt_complete (X Y Z w : List Char) (h : greenplum.IsTriple X Y Z)
    (hw : ∀ d ∈ w.head?, Char.isDigit d = false) :
    matchTripleAt (X ++ '.' :: (Y ++ '.' :: (Z ++ w))) = some (X ++ '.' :: Y ++ '.' :: Z) := by
  obtain ⟨hX, hY, hZ, dX, dY, dZ⟩ := h
  have h1 := takeWhile_run Char.isDigit ('.' :: (Y ++ '.' :: (Z ++ w)))
    (by simp [isDigit_dot]) X dX
  have h2 := takeWhile_run Char.isDigit ('.' :: (Z ++ w)) (by simp [isDigit_dot]) Y dY
  have h3 := takeWhile_run Char.isDigit w hw Z dZ
  simp only [matchTripleAt, h1.1, h1.2, h2.1, h2.2, h3.1, hX, hY, hZ, if_false, ne_eq,
    not_true_eq_false]

/-- An anchored match is a triple at the start of the text. -/
theorem matchTripleAt_sound (s m : List Char) (h : matchTripleAt s = some m) :
    ∃ X Y Z w, greenplum.IsTriple X Y Z ∧ s = X ++ '.' :: (Y ++ '.' :: (Z ++ w)) ∧
      m = X ++ '.' :: Y ++ '.' :: Z := by
  have mem : ∀ (l : List Char) (c : Char), c ∈ l.takeWhile Char.isDigit → c.isDigit = true :=
    fun l c hc => List.mem_takeWhile_imp hc
  unfold matchTripleAt at h
  simp only at h
  split_ifs at h with hA
  cases h1 : List.dropWhile Char.isDigit s with
  | nil => simp [h1] at h
  | cons d1 s1 =>
    rw [h1] at h
    simp only at h
    split_ifs at h with hd1 hB
    cases h2 : List.dropWhile Char.isDigit s1 with
    | nil => simp [h2] at h
    | cons d2 s2 =>
      rw [h2] at h
      simp only at h
      split_ifs at h with hd2 hC
      simp only [ne_eq, Decidable.not_not] at hd1 hd2
      subst hd1 hd2
      refine ⟨s.takeWhile Char.isDigit, s1.takeWhile Char.isDigit, s2.takeWhile Char.isDigit,
        s2.dropWhile Char.isDigit, ⟨hA, hB, hC, mem s, mem s1, mem s2⟩, ?_,
        (Option.some.inj h).symm⟩
      rw [List.takeWhile_append_dropWhile, ← h2, List.takeWhile_append_dropWhile, ← h1,
        List.takeWhile_append_dropWhile]

theorem FindTriple_cons (c : Char) (cs : List Char) :
    FindTriple (c :: cs) =
      match matchTripleAt (c :: cs) with
      | some m => some m
      | none => FindTriple cs := by
  rw [FindTriple]

/-- `FindTriple` returns the leftmost match: when no triple starts in `mid` and
the triple `X.Y.Z` that follows `mid` cannot be extended, the result is `X.Y.Z`. -/
theorem FindTriple_leftmost (X Y Z w : List Char) (h : greenplum.IsTriple X Y Z)
    (hw : ∀ d ∈ w.head?, Char.isDigit d = false) :
    ∀ mid : List Char,
      (∀ u X' Y' Z' w', greenplum.IsTriple X' Y' Z' →
        mid ++ (X ++ '.' :: (Y ++ '.' :: (Z ++ w))) = u ++ (X' ++ '.' :: (Y' ++ '.' :: (Z' ++ w'))) →
        mid.length ≤ u.length) →
      FindTriple (mid ++ (X ++ '.' :: (Y ++ '.' :: (Z ++ w)))) = some (X ++ '.' :: Y ++ '.' :: Z) := by
  intro mid
  induction mid with
  | nil =>
    intro _
    have hc := matchTripleAt_complete X Y Z w h hw
    cases hX : X with
    | nil => exact absurd hX h.1
    | cons x X' =>
      rw [hX, List.cons_append] at hc
      rw [List.nil_append, List.cons_append, FindTriple_cons, hc]
  | cons c mid ih =>
    intro hleft
    have hnone : matchTripleAt (c :: (mid ++ (X ++ '.' :: (Y ++ '.' :: (Z ++ w))))) = none := by
      cases hm : matchTripleAt (c :: (mid ++ (X ++ '.' :: (Y ++ '.' :: (Z ++ w))))) with
      | none => rfl
      | some m =>
        obtain ⟨X', Y', Z', w', ht, hs, _⟩ := matchTripleAt_sound _ _ hm
        have := hleft [] X' Y' Z' w' ht (by simpa using hs)
        simp at this
    have hrec := ih (fun u X' Y' Z' w' ht e => by
      have := hleft (c :: u) X' Y' Z' w' ht (by simp [e])
      simpa using this)
    rw [List.cons_append, FindTriple_cons, hnone]
    exact hrec

end regexp

/-! ## The strict parser on a plain triple -/

namespace strings

theorem singleton_isPrefixOf_cons (ch x : Char) (xs : List Char) :
    [ch].isPrefixOf (x :: xs) = (ch == x) := by
  simp [List.isPrefixOf]

theorem Index_char_none (ch : Char) : ∀ A : List Char, ch ∉ A → Index A [ch] = none := by
  intro A
  induction A with
  | nil => intro _; simp [Index]
  | cons x xs ih =>
    intro h
    have hx : ¬ ch = x := fun e => h (by simp [e])
    have hxs : ch ∉ xs := fun e => h (List.mem_cons_of_mem x e)
    rw [Index_cons, singleton_isPrefixOf_cons]
    simp [hx, ih hxs]

theorem Index_char_first (ch : Char) (r : List Char) : ∀ A : List Char, ch ∉ A →
    Index (A ++ ch :: r) [ch] = some A.length := by
  intro A
  induction A with
  | nil => intro _; rw [List.nil_append, Index_cons, singleton_isPrefixOf_cons]; simp
  | cons x xs ih =>
    intro h
    have hx : ¬ ch = x := fun e => h (by simp [e])
    have hxs : ch ∉ xs := fun e => h (List.mem_cons_of_mem x e)
    rw [List.cons_append, Index_cons, singleton_isPrefixOf_cons]
    simp [hx, ih hxs]

theorem SplitN_three_dots (X Y Z : List Char) (hX : '.' ∉ X) (hY : '.' ∉ Y) :
    SplitN (X ++ '.' :: (Y ++ '.' :: Z)) ['.'] 3 = [X, Y, Z] := by
  have h1 := Index_char_first '.' (Y ++ '.' :: Z) X hX
  have h2 := Index_char_first '.' Z Y hY
  have d1 : List.drop (X.length + 1) (X ++ '.' :: (Y ++ '.' :: Z)) = Y ++ '.' :: Z := by
    rw [List.drop_append_eq_append_drop]
    simp
  have d2 : List.drop (Y.length + 1) (Y ++ '.' :: Z) = Z := by
    rw [List.drop_append_eq_append_drop]
    simp
  simp only [SplitN, h1, h2, List.length_singleton, d1, d2, List.take_left']

end strings

namespace semver

theorem isDigit_bounds (c : Char) (h : c.isDigit = true) : 48 ≤ c.toNat ∧ c.toNat ≤ 57 := by
  simp only [Char.isDigit, Bool.and_eq_true, decide_eq_true_eq] at h
  exact ⟨h.1, h.2⟩

theorem mem_numbers_of_isDigit (c : Char) (h : c.isDigit = true) :
    numbers.contains c = true := by
  obtain ⟨h1, h2⟩ := isDigit_bounds c h
  have hc : c = Char.ofNat c.toNat := (Char.ofNat_toNat c).symm
  generalize c.toNat = n at h1 h2 hc
  subst hc
  interval_cases n <;> decide

theorem not_mem_of_digits (ch : Char) (hch : ch.isDigit = false) (A : List Char)
    (hA : ∀ c ∈ A, c.isDigit = true) : ch ∉ A := by
  intro h
  have := hA ch h
  rw [hch] at this
  exact Bool.noConfusion this

/-- A canonical decimal numeral below `2^64` is accepted as a numeric field. -/
theorem parseNumber_repr (q : Fmt) (what What : String) (n : Nat) (hn : n < 2 ^ 64) :
    parseNumber q what What (toString n).data = .ok n := by
  obtain ⟨hne, hdig, hval, hz, hhead⟩ := strconv.repr_spec n
  have h1 : containsOnly (toString n).data numbers = true := by
    unfold containsOnly
    rw [List.all_eq_true]
    exact fun c hc => mem_numbers_of_isDigit c (hdig c hc)
  have h2 : hasLeadingZeroes (toString n).data = false := by
    by_cases h0 : n = 0
    · rw [hz h0]; rfl
    · have hh := hhead h0
      cases hd : (toString n).data with
      | nil => rfl
      | cons x xs =>
        rw [hd] at hh
        cases xs with
        | nil => rfl
        | cons y ys =>
          have hx : ¬ x = '0' := fun e => hh (by simp [e])
          simp [hasLeadingZeroes, hx]
  have h3 : strconv.ParseUint (toString n).data = .ok n := by
    have hall : (toString n).data.all Char.isDigit = true := by
      rw [List.all_eq_true]; exact hdig
    have hn' : n < 18446744073709551616 := by simpa using hn
    simp [strconv.ParseUint, hne, hall, hval, hn']
  simp [parseNumber, h1, h2, h3]

/-- The strict parser reads the text `a.b.c` of three canonical decimal
numerals below `2^64` as the plain version `a.b.c`. -/
theorem Parse_tripleText (q : Fmt) (a b c : Nat)
    (ha : a < 2 ^ 64) (hb : b < 2 ^ 64) (hc : c < 2 ^ 64) :
    Parse q (greenplum.tripleText a b c) = .ok ⟨a, b, c, [], []⟩ := by
  have da := (strconv.repr_spec a).2.1
  have db := (strconv.repr_spec b).2.1
  have dc := (strconv.repr_spec c).2.1
  have na := (strconv.repr_spec a).1
  have e : greenplum.tripleText a b c =
      (toString a).data ++ '.' :: ((toString b).data ++ '.' :: (toString c).data) := by
    simp [greenplum.tripleText, String.data_append]
  have hlen : ¬ (greenplum.tripleText a b c).length = 0 := by
    rw [e]
    simp
  have hsplit := strings.SplitN_three_dots (toString a).data (toString b).data (toString c).data
    (not_mem_of_digits '.' (by decide) _ da) (not_mem_of_digits '.' (by decide) _ db)
  have hplus := strings.Index_char_none '+' (toString c).data
    (not_mem_of_digits '+' (by decide) _ dc)
  have hminus := strings.Index_char_none '-' (toString c).data
    (not_mem_of_digits '-' (by decide) _ dc)
  unfold Parse
  rw [if_neg hlen, e, hsplit]
  simp only [parseNumber_repr q _ _ a ha, parseNumber_repr q _ _ b hb, hplus, hminus,
    parseNumber_repr q _ _ c hc, parsePre, parseBuild]

end semver

/-! ## Banner parsing -/

namespace greenplum

theorem isSpace_of_isDigit (c : Char) (h : c.isDigit = true) : strings.isSpace c = false := by
  obtain ⟨h1, h2⟩ := semver.isDigit_bounds c h
  rw [Bool.eq_false_iff]
  intro hs
  simp only [strings.isSpace, Bool.or_eq_true, Bool.and_eq_true, decide_eq_true_eq] at hs
  omega

theorem tripleText_eq (a b c : Nat) :
    tripleText a b c =
      (toString a).data ++ '.' :: ((toString b).data ++ '.' :: (toString c).data) := by
  simp [tripleText, String.data_append]

theorem isTriple_repr (a b c : Nat) :
    IsTriple (toString a).data (toString b).data (toString c).data :=
  ⟨(strconv.repr_spec a).1, (strconv.repr_spec b).1, (strconv.repr_spec c).1,
    (strconv.repr_spec a).2.1, (strconv.repr_spec b).2.1, (strconv.repr_spec c).2.1⟩

theorem bannerMarker_head (k : Fin 3) :
    ∃ tail : List Char, (bannerMarker k).data = 'p' :: tail := by
  fin_cases k <;> exact ⟨_, rfl⟩

theorem bannerMarker_dropLast (k : Fin 3) :
    (bannerMarker k).data = (bannerMarker k).data.dropLast ++ [' '] := by
  fin_cases k <;> rfl

/-- The text that `Version` works on after trimming, and what the search,
split, pattern match and strict parse give on it. -/
theorem banner_facts (q : Fmt) (k : Fin 3) (pre mid rest : List Char) (a b c : Nat)
    (hfirst : ∀ u w, pre ++ (bannerMarker k).data = u ++ (bannerMarker k).data ++ w → w = [])
    (hprio : ∀ j : Fin 3, j < k → ¬ (bannerMarker j).data.dropLast <:+:
      (pre ++ (bannerMarker k).data ++ mid ++ tripleText a b c ++ rest))
    (hleft : ∀ u X Y Z w, IsTriple X Y Z →
      mid ++ tripleText a b c ++ rest = u ++ (X ++ '.' :: (Y ++ '.' :: (Z ++ w))) →
      mid.length ≤ u.length)
    (hgreedy : ∀ d ∈ rest.head?, d.isDigit = false)
    (ha : a < 2 ^ 64) (hb : b < 2 ^ 64) (hc : c < 2 ^ 64) :
    ∃ trimmed before after : List Char,
      strings.TrimSpace (pre ++ (bannerMarker k).data ++ mid ++ tripleText a b c ++ rest)
        = trimmed ∧
      strings.Contains trimmed (bannerMarker k).data.dropLast = true ∧
      (∀ j : Fin 3, j < k → strings.Contains trimmed (bannerMarker j).data.dropLast = false) ∧
      strings.SplitN trimmed (bannerMarker k).data 2 = [before, after] ∧
      regexp.FindTriple after = some (tripleText a b c) ∧
      semver.Parse q (tripleText a b c) = .ok (plain a b c) := by
  obtain ⟨tail, hM⟩ := bannerMarker_head k
  have hT := tripleText_eq a b c
  have hne : (bannerMarker k).data ≠ [] := by rw [hM]; simp
  -- the last character of the triple is a digit
  have hcne := (strconv.repr_spec c).1
  have hcdig := (strconv.repr_spec c).2.1
  obtain ⟨C', y, hC⟩ : ∃ C' y, (toString c).data = C' ++ [y] :=
    ⟨_, _, (List.dropLast_append_getLast hcne).symm⟩
  have hy : strings.isSpace y = false :=
    isSpace_of_isDigit y (hcdig y (by rw [hC]; simp))
  have hp : strings.isSpace 'p' = false := by decide
  -- the outer parts after trimming
  obtain ⟨ws1, hws1⟩ : ∃ ws, pre = ws ++ List.dropWhile strings.isSpace pre :=
    ⟨_, (List.takeWhile_append_dropWhile strings.isSpace pre).symm⟩
  obtain ⟨ws2, hws2⟩ : ∃ ws, rest = List.rdropWhile strings.isSpace rest ++ ws := by
    obtain ⟨ws, h⟩ := List.rdropWhile_prefix strings.isSpace (l := rest)
    exact ⟨ws, h.symm⟩
  have hraw : pre ++ (bannerMarker k).data ++ mid ++ tripleText a b c ++ rest =
      pre ++ 'p' :: ((tail ++ (mid ++ ((toString a).data ++ '.' ::
        ((toString b).data ++ '.' :: C')))) ++ y :: rest) := by
    rw [hM, hT, hC]; simp
  have htrim := strings.TrimSpace_around pre rest
    (tail ++ (mid ++ ((toString a).data ++ '.' :: ((toString b).data ++ '.' :: C')))) 'p' y hp hy
  have hshape : List.dropWhile strings.isSpace pre ++ 'p' ::
      ((tail ++ (mid ++ ((toString a).data ++ '.' :: ((toString b).data ++ '.' :: C')))) ++
        y :: List.rdropWhile strings.isSpace rest) =
      List.dropWhile strings.isSpace pre ++ (bannerMarker k).data ++
        (mid ++ ((toString a).data ++ '.' :: ((toString b).data ++ '.' ::
          ((toString c).data ++ List.rdropWhile strings.isSpace rest)))) := by
    rw [hM, hC]; simp
  refine ⟨_, List.dropWhile strings.isSpace pre,
    mid ++ ((toString a).data ++ '.' :: ((toString b).data ++ '.' ::
      ((toString c).data ++ List.rdropWhile strings.isSpace rest))),
    by rw [hraw, htrim, hshape], ?_, ?_, ?_, ?_, ?_⟩
  · rw [strings.Contains_iff]
    refine ⟨List.dropWhile strings.isSpace pre, [' '] ++ (mid ++ ((toString a).data ++ '.' ::
      ((toString b).data ++ '.' ::
        ((toString c).data ++ List.rdropWhile strings.isSpace rest)))), ?_⟩
    conv_rhs => rw [bannerMarker_dropLast k]
    simp
  · intro j hj
    rw [Bool.eq_false_iff, ne_eq, strings.Contains_iff]
    intro hin
    apply hprio j hj
    refine hin.trans ⟨ws1, ws2, ?_⟩
    conv_rhs => rw [hws1, hws2, hT]
    simp
  · apply strings.SplitN_two_first _ hne
    intro u w e
    apply hfirst (ws1 ++ u) w
    conv_lhs => rw [hws1]
    rw [List.append_assoc, e]
    simp
  · rw [hT]
    have hfind := regexp.FindTriple_leftmost (toString a).data (toString b).data
      (toString c).data (List.rdropWhile strings.isSpace rest) (isTriple_repr a b c) ?_ mid ?_
    · rw [hfind]; simp
    · intro d hd
      apply hgreedy d
      cases hr : List.rdropWhile strings.isSpace rest with
      | nil => rw [hr] at hd; simp at hd
      | cons x xs =>
        rw [hr] at hd hws2
        rw [hws2]
        simpa using hd
    · intro u X Y Z w ht e
      apply hleft u X Y Z (w ++ ws2) ht
      rw [hT]
      conv_lhs => rw [hws2]
      have e2 := congrArg (· ++ ws2) e
      simp only [List.append_assoc, List.cons_append] at e2 ⊢
      exact e2
  · exact semver.Parse_tripleText q a b c ha hb hc

theorem TrimSpace_within (s : List Char) : strings.TrimSpace s <:+: s :=
  (List.rdropWhile_prefix strings.isSpace _).isInfix.trans
    (List.dropWhile_suffix strings.isSpace).isInfix

/-- When the output contains none of the three marker texts, even without the
trailing space, `Version` returns the unrecognized-banner error next to the
sentinel value. -/
theorem Version_unrecognized_banner (q : Fmt) (cmd output : String)
    (h : ∀ j : Fin 3, ¬ (bannerMarker j).data.dropLast <:+: output.data) :
    Version q ⟨cmd, output, none⟩ =
      .returned (sentinel, some ("version " ++ q.quote output ++
        " is not of the form \"postgres (Greenplum/Cloudberry Database) #.#.#\"")) := by
  have hc : ∀ j : Fin 3,
      strings.Contains (strings.TrimSpace output.data) (bannerMarker j).data.dropLast = false := by
    intro j
    rw [Bool.eq_false_iff, ne_eq, strings.Contains_iff]
    exact fun hin => h j (hin.trans (TrimSpace_within _))
  have h0 : strings.Contains (strings.TrimSpace output.data)
      "postgres (Greenplum Database)".data = false := hc 0
  have h1 : strings.Contains (strings.TrimSpace output.data)
      "postgres (Apache Cloudberry)".data = false := hc 1
  have h2 : strings.Contains (strings.TrimSpace output.data)
      "postgres (Cloudberry Database)".data = false := hc 2
  unfold Version
  simp [h0, h1, h2]

/-- C9 (amended): banner parsing on a well-formed banner. The command output is
`pre ++ M ++ mid ++ a.b.c ++ rest` where `M` is one of the three markers with its
trailing space and this is the first occurrence of `M`; no marker that `Version`
tests before `M` occurs in the output, even without its trailing space; no
match of the numeric pattern starts inside `mid` and the digit run of `c` ends
where `rest` begins (so `a.b.c` is the first match after the marker); `a`, `b`
and `c` are written in canonical decimal and are below `2^64`. Then `Version`
returns `DatabaseVersion{family(M), a.b.c}` and a nil error. -/
theorem Version_parses_banner (q : Fmt) (cmd : String) (k : Fin 3)
    (pre mid rest : List Char) (a b c : Nat)
    (hfirst : ∀ u w, pre ++ (bannerMarker k).data = u ++ (bannerMarker k).data ++ w → w = [])
    (hprio : ∀ j : Fin 3, j < k → ¬ (bannerMarker j).data.dropLast <:+:
      (pre ++ (bannerMarker k).data ++ mid ++ tripleText a b c ++ rest))
    (hleft : ∀ u X Y Z w, IsTriple X Y Z →
      mid ++ tripleText a b c ++ rest = u ++ (X ++ '.' :: (Y ++ '.' :: (Z ++ w))) →
      mid.length ≤ u.length)
    (hgreedy : ∀ d ∈ rest.head?, d.isDigit = false)
    (ha : a < 2 ^ 64) (hb : b < 2 ^ 64) (hc : c < 2 ^ 64) :
    Version q ⟨cmd,
        String.mk (pre ++ (bannerMarker k).data ++ mid ++ tripleText a b c ++ rest), none⟩ =
      .returned (⟨bannerFamily k, plain a b c⟩, none) := by
  obtain ⟨trimmed, before, after, htrim, hk, hj, hsplit, hfind, hparse⟩ :=
    banner_facts q k pre mid rest a b c hfirst hprio hleft hgreedy ha hb hc
  unfold Version
  simp only [htrim]
  fin_cases k
  · have hk' : strings.Contains trimmed "postgres (Greenplum Database)".data = true := hk
    have hs' : strings.SplitN trimmed "postgres (Greenplum Database) ".data 2 =
        [before, after] := hsplit
    simp [hk', hs', hfind, hparse, bannerFamily]
  · have h0 : strings.Contains trimmed "postgres (Greenplum Database)".data = false :=
      hj 0 (by decide)
    have hk' : strings.Contains trimmed "postgres (Apache Cloudberry)".data = true := hk
    have hs' : strings.SplitN trimmed "postgres (Apache Cloudberry) ".data 2 =
        [before, after] := hsplit
    simp [h0, hk', hs', hfind, hparse, bannerFamily]
  · have h0 : strings.Contains trimmed "postgres (Greenplum Database)".data = false :=
      hj 0 (by decide)
    have h1 : strings.Contains trimmed "postgres (Apache Cloudberry)".data = false :=
      hj 1 (by decide)
    have hk' : strings.Contains trimmed "postgres (Cloudberry Database)".data = true := hk
    have hs' : strings.SplitN trimmed "postgres (Cloudberry Database) ".data 2 =
        [before, after] := hsplit
    simp [h0, h1, hk', hs', hfind, hparse, bannerFamily]

/-- Witness of `Version_parses_banner`: the banner
`postgres (Greenplum Database) 6.20.0 build commit:abc` gives
`DatabaseVersion{Greenplum, 6.20.0}`. -/
theorem Version_parses_banner_witness :
    String.mk ([] ++ (bannerMarker 0).data ++ [] ++ tripleText 6 20 0 ++
        " build commit:abc".data) =
      "postgres (Greenplum Database) 6.20.0 build commit:abc" ∧
    Version plainFmt ⟨"postgres --gp-version",
        String.mk ([] ++ (bannerMarker 0).data ++ [] ++ tripleText 6 20 0 ++
          " build commit:abc".data), none⟩ =
      .returned (⟨bannerFamily 0, plain 6 20 0⟩, none) :=
  ⟨by decide,
    Version_parses_banner plainFmt "postgres --gp-version" 0 [] [] " build commit:abc".data
      6 20 0
      (fun u w e => by
        have h := congrArg List.length e
        simp only [List.nil_append, List.length_append] at h
        exact List.length_eq_zero.1 (by omega))
      (fun j hj => absurd hj (Fin.not_lt_zero j))
      (fun u X Y Z w _ _ => Nat.zero_le _)
      (fun d hd => by
        have hd' : d = ' ' := by simpa using hd.symm
        subst hd'
        decide)
      (by norm_num) (by norm_num) (by norm_num)⟩

/-- C9 as stated fails on the code, at two banners. (1) In
`postgres (Greenplum Database) 06.1.0` the marker is followed by the text
`06.1.0`, the first match of the numeric pattern, and `Version` returns an
error and the sentinel, because the strict parser rejects a leading zero.
(2) In `postgres (Apache Cloudberry) 1.2.3 postgres (Greenplum Database) 6.0.0`
the Cloudberry marker is followed by `1.2.3`, and `Version` returns
`Greenplum 6.0.0`, because the Greenplum marker is tested first. -/
theorem Version_banner_not_every_triple :
    regexp.FindTriple "06.1.0".data = some "06.1.0".data ∧
    Version plainFmt
        ⟨"postgres --gp-version", "postgres (Greenplum Database) 06.1.0", none⟩ =
      .returned (sentinel, some ("parsing Greenplum version " ++
        "\"postgres (Greenplum Database) 06.1.0\": " ++
        "Major number must not contain leading zeroes \"06\"")) ∧
    regexp.FindTriple "1.2.3 postgres (Greenplum Database) 6.0.0".data = some "1.2.3".data ∧
    Version plainFmt ⟨"postgres --gp-version",
        "postgres (Apache Cloudberry) 1.2.3 postgres (Greenplum Database) 6.0.0", none⟩ =
      .returned (⟨Greenplum, plain 6 0 0⟩, none) := by
  decide

/-- C10 (the code departs from the claim): the output
`postgres (Greenplum Database)` contains none of the three markers that end in a
space, and `Version` does not return the unrecognized-banner error: the branch
test finds the marker without its trailing space, the split on the marker with
the space gives one piece, and `parts[1]` panics. -/
theorem Version_panics_on_marker_without_space (q : Fmt) (cmd : String) :
    (∀ j : Fin 3,
      strings.Contains "postgres (Greenplum Database)".data (bannerMarker j).data = false) ∧
    Version q ⟨cmd, "postgres (Greenplum Database)", none⟩ =
      .panicked "runtime error: index out of range [1] with length 1" := by
  have h1 : strings.TrimSpace "postgres (Greenplum Database)".data =
      "postgres (Greenplum Database)".data := by decide
  have h2 : strings.Contains "postgres (Greenplum Database)".data
      "postgres (Greenplum Database)".data = true := by decide
  have h3 : strings.SplitN "postgres (Greenplum Database)".data
      "postgres (Greenplum Database) ".data 2 = ["postgres (Greenplum Database)".data] := by
    decide
  have h4 : "runtime error: index out of range [1] with length " ++ toString 1 =
      "runtime error: index out of range [1] with length 1" := by decide
  refine ⟨by decide, ?_⟩
  unfold Version
  simp only [h1, h2, h3, if_true, List.get?, List.length_singleton, h4]

end greenplum

/-! ## Banner parsing: outputs on which `Version` panics -/

namespace greenplum

/-- C11 (the code departs from the claim): in the output
`postgres (Greenplum Database) ` the marker is present and nothing follows it.
`Version` does not return the version-extraction error: after trimming, the
text ends with the marker without its space, the split on the marker with the
space gives one piece, and `parts[1]` panics. -/
theorem Version_panics_when_nothing_follows_marker (q : Fmt) (cmd : String) :
    strings.Contains "postgres (Greenplum Database) ".data (bannerMarker 0).data = true ∧
    Version q ⟨cmd, "postgres (Greenplum Database) ", none⟩ =
      .panicked "runtime error: index out of range [1] with length 1" := by
  have h1 : strings.TrimSpace "postgres (Greenplum Database) ".data =
      "postgres (Greenplum Database)".data := by decide
  have h2 : strings.Contains "postgres (Greenplum Database)".data
      "postgres (Greenplum Database)".data = true := by decide
  have h3 : strings.SplitN "postgres (Greenplum Database)".data
      "postgres (Greenplum Database) ".data 2 = ["postgres (Greenplum Database)".data] := by
    decide
  have h4 : "runtime error: index out of range [1] with length " ++ toString 1 =
      "runtime error: index out of range [1] with length 1" := by decide
  refine ⟨by decide, ?_⟩
  unfold Version
  simp only [h1, h2, h3, if_true, List.get?, List.length_singleton, h4]

/-- C17 (the code departs from the claim): banner parsing is not total. In the
output `postgres (Greenplum Database)6.20.0` the marker is followed by no
space; the Greenplum branch is taken, the split on the marker with the space
gives one piece, and `parts[1]` panics. -/
theorem Version_panics_when_no_space_follows_marker (q : Fmt) (cmd : String) :
    strings.SplitN (strings.TrimSpace "postgres (Greenplum Database)6.20.0".data)
        "postgres (Greenplum Database) ".data 2 =
      ["postgres (Greenplum Database)6.20.0".data] ∧
    Version q ⟨cmd, "postgres (Greenplum Database)6.20.0", none⟩ =
      .panicked "runtime error: index out of range [1] with length 1" := by
  have h1 : strings.TrimSpace "postgres (Greenplum Database)6.20.0".data =
      "postgres (Greenplum Database)6.20.0".data := by decide
  have h2 : strings.Contains "postgres (Greenplum Database)6.20.0".data
      "postgres (Greenplum Database)".data = true := by decide
  have h3 : strings.SplitN "postgres (Greenplum Database)6.20.0".data
      "postgres (Greenplum Database) ".data 2 =
      ["postgres (Greenplum Database)6.20.0".data] := by
    decide
  have h4 : "runtime error: index out of range [1] with length " ++ toString 1 =
      "runtime error: index out of range [1] with length 1" := by decide
  refine ⟨by decide, ?_⟩
  unfold Version
  simp only [h1, h2, h3, if_true, List.get?, List.length_singleton, h4]

end greenplum

/-! ## The validator: messages, effective acceptance, the gate -/

namespace greenplum

/-- C20 (the code departs from the claim): the unknown-family branch writes the
two versions in the reverse direction. For the source `DatabaseVersion{-1, 0.0.0}`
and the target `Greenplum 7.0.0` the text is `Upgrade from Greenplum 7.0.0 to
Unknown 0.0.0 is not supported`: the target stands after `from` and the source
after `to`. The Greenplum-to-Cloudberry branch writes source then target. -/
theorem validate_swaps_direction_for_unknown_family :
    DatabaseVersion.String ⟨-1, plain 0 0 0⟩ = "Unknown 0.0.0" ∧
    DatabaseVersion.String ⟨Greenplum, plain 7 0 0⟩ = "Greenplum 7.0.0" ∧
    validate ⟨-1, plain 0 0 0⟩ ⟨Greenplum, plain 7 0 0⟩ =
      some ("Unsupported source and target versions. " ++
        "Upgrade from Greenplum 7.0.0 to Unknown 0.0.0 is not supported. " ++
        "Check the documentation for further information.") ∧
    validate ⟨Greenplum, plain 6 0 0⟩ ⟨Cloudberry, plain 1 0 0⟩ =
      some ("Unsupported source and target versions. " ++
        "Upgrade from Greenplum 6.0.0 to Cloudberry 1.0.0 is not supported now") := by
  decide

/-- C19: `VerifyCompatibleGPDBVersions` returns the error of the source
retriever when there is one, whatever the target retriever does; otherwise the
error of the target retriever when there is one; otherwise
`validate(sourceVersion, targetVersion)`. -/
theorem VerifyCompatibleGPDBVersions_propagates
    (GetSourceVersion GetTargetVersion : String → Outcome (DatabaseVersion × error))
    (sourceGPHome targetGPHome : String) :
    (∀ sv e, GetSourceVersion sourceGPHome = .returned (sv, some e) →
      VerifyCompatibleGPDBVersions GetSourceVersion GetTargetVersion sourceGPHome targetGPHome
        = .returned (some e)) ∧
    (∀ sv tv e, GetSourceVersion sourceGPHome = .returned (sv, none) →
      GetTargetVersion targetGPHome = .returned (tv, some e) →
      VerifyCompatibleGPDBVersions GetSourceVersion GetTargetVersion sourceGPHome targetGPHome
        = .returned (some e)) ∧
    (∀ sv tv, GetSourceVersion sourceGPHome = .returned (sv, none) →
      GetTargetVersion targetGPHome = .returned (tv, none) →
      VerifyCompatibleGPDBVersions GetSourceVersion GetTargetVersion sourceGPHome targetGPHome
        = .returned (validate sv tv)) := by
  refine ⟨fun sv e hs => ?_, fun sv tv e hs ht => ?_, fun sv tv hs ht => ?_⟩
  · simp [VerifyCompatibleGPDBVersions, hs]
  · simp [VerifyCompatibleGPDBVersions, hs, ht]
  · simp [VerifyCompatibleGPDBVersions, hs, ht]

/-- Witness of `VerifyCompatibleGPDBVersions_propagates`: a failing source
retriever next to a panicking target retriever, a failing target retriever, and
two retrievers that succeed. -/
theorem VerifyCompatibleGPDBVersions_propagates_witness :
    VerifyCompatibleGPDBVersions (fun _ => .returned (sentinel, some "source failed"))
        (fun _ => .panicked "unreachable") "/old" "/new" = .returned (some "source failed") ∧
    VerifyCompatibleGPDBVersions (fun _ => .returned (⟨Greenplum, plain 6 3 0⟩, none))
        (fun _ => .returned (sentinel, some "target failed")) "/old" "/new"
      = .returned (some "target failed") ∧
    VerifyCompatibleGPDBVersions (fun _ => .returned (⟨Greenplum, plain 6 3 0⟩, none))
        (fun _ => .returned (⟨Greenplum, plain 5 0 0⟩, none)) "/old" "/new"
      = .returned (validate ⟨Greenplum, plain 6 3 0⟩ ⟨Greenplum, plain 5 0 0⟩) :=
  ⟨(VerifyCompatibleGPDBVersions_propagates _ _ "/old" "/new").1 sentinel "source failed" rfl,
    (VerifyCompatibleGPDBVersions_propagates _ _ "/old" "/new").2.1 ⟨Greenplum, plain 6 3 0⟩
      sentinel "target failed" rfl rfl,
    (VerifyCompatibleGPDBVersions_propagates _ _ "/old" "/new").2.2 ⟨Greenplum, plain 6 3 0⟩
      ⟨Greenplum, plain 5 0 0⟩ rfl rfl⟩

theorem geLtRange_same_major (v : semver.Version) (m : Nat) (hpre : v.Pre = [])
    (hm : v.Major = m) : semver.geLtRange (plain m 0 0) (plain (m + 1) 0 0) v = true := by
  simp only [semver.geLtRange, semver.Version.Compare, semver.comparePre, plain, hpre, hm,
    List.length_nil, Bool.and_eq_true, decide_eq_true_eq]
  constructor
  · split_ifs <;> omega
  · split_ifs <;> omega

theorem geLtRange_lower_major (v : semver.Version) (m : Nat) (hm : v.Major < m) :
    semver.geLtRange (plain m 0 0) (plain (m + 1) 0 0) v = false := by
  have h : v.Compare (plain m 0 0) = -1 := by
    simp only [semver.Version.Compare, plain]
    split_ifs <;> first | rfl | omega
  simp [semver.geLtRange, h]

/-- For plain Greenplum versions `validate` succeeds exactly on equal majors 6
or 7. -/
theorem validate_plain_iff (s t : DatabaseVersion)
    (hs : s.Databasetype = Greenplum) (ht : t.Databasetype = Greenplum)
    (hsp : s.Version.Pre = []) :
    validate s t = none ↔
      s.Version.Major = t.Version.Major ∧ (s.Version.Major = 6 ∨ s.Version.Major = 7) := by
  by_cases h56 : s.Version.Major = 5 ∧ t.Version.Major = 6
  · have n := geLtRange_lower_major s.Version 6 (by omega)
    simp only [validate, hs, ht, selectTransition, h56, and_self, if_true]
    simp only [Nat.reduceAdd] at n
    rw [n]
    by_cases hr : semver.geLtRange (plain 5 29 10) (plain 6 0 0) s.Version = true
    · simp [hr]
    · simp [hr]
  by_cases h66 : s.Version.Major = 6 ∧ t.Version.Major = 6
  · have r := geLtRange_same_major s.Version 6 hsp h66.1
    simp only [Nat.reduceAdd] at r
    simp [validate, hs, ht, selectTransition, h66, r]
  by_cases h67 : s.Version.Major = 6 ∧ t.Version.Major = 7
  · have r := geLtRange_same_major s.Version 6 hsp h67.1
    have n := geLtRange_lower_major s.Version 7 (by omega)
    simp only [Nat.reduceAdd] at r n
    simp [validate, hs, ht, selectTransition, h67, r, n]
  by_cases h77 : s.Version.Major = 7 ∧ t.Version.Major = 7
  · have r := geLtRange_same_major s.Version 7 hsp h77.1
    simp only [Nat.reduceAdd] at r
    simp [validate, hs, ht, selectTransition, h77, r]
  · have hne : validate s t ≠ none := by
      simp [validate, hs, ht, selectTransition, h56, h66, h67, h77]
    constructor
    · intro h; exact absurd h hne
    · rintro ⟨e, h6 | h7⟩
      · exact absurd ⟨h6, e ▸ h6⟩ h66
      · exact absurd ⟨h7, e ▸ h7⟩ h77

/-- C18: the effective Greenplum acceptance set. For a Greenplum source without
pre-release identifiers and a Greenplum target (plain or not) `validate`
succeeds exactly when the two majors are equal and are 6 or 7; two such pairs
with the same majors are accepted or rejected alike, whatever their minor and
patch components. -/
theorem validate_effective_acceptance (s t : DatabaseVersion)
    (hs : s.Databasetype = Greenplum) (ht : t.Databasetype = Greenplum)
    (hsp : s.Version.Pre = []) :
    (validate s t = none ↔
      s.Version.Major = t.Version.Major ∧ (s.Version.Major = 6 ∨ s.Version.Major = 7)) ∧
    (∀ s' t' : DatabaseVersion,
      s'.Databasetype = Greenplum → t'.Databasetype = Greenplum →
      s'.Version.Pre = [] →
      s'.Version.Major = s.Version.Major → t'.Version.Major = t.Version.Major →
      (validate s' t' = none ↔ validate s t = none)) := by
  refine ⟨validate_plain_iff s t hs ht hsp, ?_⟩
  intro s' t' hs' ht' hsp' hsm htm
  rw [validate_plain_iff s t hs ht hsp, validate_plain_iff s' t' hs' ht' hsp', hsm, htm]

/-- Witness of `validate_effective_acceptance`: `Greenplum 6.3.0 -> Greenplum
6.20.1` is accepted and so is every plain pair of majors `(6,6)`. -/
theorem validate_effective_acceptance_witness :
    validate ⟨Greenplum, plain 6 3 0⟩ ⟨Greenplum, plain 6 20 1⟩ = none ∧
    (validate ⟨Greenplum, plain 6 0 0⟩ ⟨Greenplum, plain 6 99 7⟩ = none ↔
      validate ⟨Greenplum, plain 6 3 0⟩ ⟨Greenplum, plain 6 20 1⟩ = none) :=
  ⟨(validate_effective_acceptance ⟨Greenplum, plain 6 3 0⟩ ⟨Greenplum, plain 6 20 1⟩
      rfl rfl rfl).1.2 ⟨rfl, Or.inl rfl⟩,
    (validate_effective_acceptance ⟨Greenplum, plain 6 3 0⟩ ⟨Greenplum, plain 6 20 1⟩
      rfl rfl rfl).2 ⟨Greenplum, plain 6 0 0⟩ ⟨Greenplum, plain 6 99 7⟩
      rfl rfl rfl rfl rfl⟩

/-- C3: `validate` admits no Greenplum pair outside the policy table. For a
Greenplum source and a Greenplum target that are plain `major.minor.patch`
versions (what `Version` returns and what the specification calls a
SemanticVersion), a nil result implies that the two majors select a row of the
table, that the source lies in the source range of the row and that the target
lies in its target range. -/
theorem validate_admits_only_policy_rows (s t : DatabaseVersion)
    (hs : s.Databasetype = Greenplum) (ht : t.Databasetype = Greenplum)
    (hsp : s.Version.Pre = []) (htp : t.Version.Pre = [])
    (h : validate s t = none) :
    ∃ row ∈ policyTable,
      s.Version.Major = row.sourceMajor ∧ t.Version.Major = row.targetMajor ∧
      inRange row.sourceLo row.sourceHi s.Version ∧
      inRange row.targetLo row.targetHi t.Version := by
  obtain ⟨heq, h6 | h7⟩ := (validate_plain_iff s t hs ht hsp).1 h
  · have ht6 : t.Version.Major = 6 := by rw [← heq]; exact h6
    refine ⟨⟨6, 6, plain 6 0 0, plain 7 0 0, plain 6 0 0, plain 7 0 0, "6.0.0", "6.0.0"⟩,
      by simp [policyTable], h6, ht6, ?_, ?_⟩
    · exact (geLtRange_eq_true_iff _ _ _).1 (geLtRange_same_major s.Version 6 hsp h6)
    · exact (geLtRange_eq_true_iff _ _ _).1 (geLtRange_same_major t.Version 6 htp ht6)
  · have ht7 : t.Version.Major = 7 := by rw [← heq]; exact h7
    refine ⟨⟨7, 7, plain 7 0 0, plain 8 0 0, plain 7 0 0, plain 8 0 0, "7.0.0", "7.0.0"⟩,
      by simp [policyTable], h7, ht7, ?_, ?_⟩
    · exact (geLtRange_eq_true_iff _ _ _).1 (geLtRange_same_major s.Version 7 hsp h7)
    · exact (geLtRange_eq_true_iff _ _ _).1 (geLtRange_same_major t.Version 7 htp ht7)

/-- Witness of `validate_admits_only_policy_rows`: `Greenplum 6.3.0 ->
Greenplum 6.20.1` is admitted and lies in the row `(6,6)`. -/
theorem validate_admits_only_policy_rows_witness :
    validate ⟨Greenplum, plain 6 3 0⟩ ⟨Greenplum, plain 6 20 1⟩ = none ∧
    ∃ row ∈ policyTable,
      (plain 6 3 0).Major = row.sourceMajor ∧ (plain 6 20 1).Major = row.targetMajor ∧
      inRange row.sourceLo row.sourceHi (plain 6 3 0) ∧
      inRange row.targetLo row.targetHi (plain 6 20 1) :=
  ⟨by decide,
    validate_admits_only_policy_rows ⟨Greenplum, plain 6 3 0⟩ ⟨Greenplum, plain 6 20 1⟩
      rfl rfl rfl rfl (by decide)⟩

/-- C15 as stated fails on two rejections. `Cloudberry 1.0.0 -> Greenplum 6.0.0`
is rejected with a fixed text that contains neither version, and `Cloudberry
2.0.0 -> Cloudberry 1.0.0` with a text that gives the two major numbers only. -/
theorem validate_error_without_version :
    validate ⟨Cloudberry, plain 1 0 0⟩ ⟨Greenplum, plain 6 0 0⟩ =
      some "Unsupported source and target versions. Cannot upgrade from Cloudberry to Greenplum" ∧
    ¬ mentions "Unsupported source and target versions. Cannot upgrade from Cloudberry to Greenplum"
      (DatabaseVersion.String ⟨Cloudberry, plain 1 0 0⟩) ∧
    ¬ mentions "Unsupported source and target versions. Cannot upgrade from Cloudberry to Greenplum"
      (DatabaseVersion.String ⟨Greenplum, plain 6 0 0⟩) ∧
    validate ⟨Cloudberry, plain 2 0 0⟩ ⟨Cloudberry, plain 1 0 0⟩ =
      some ("Unsupported source and target versions. " ++
        "TargetVersion 1 must larger than sourceVersion 2") ∧
    ¬ mentions ("Unsupported source and target versions. " ++
        "TargetVersion 1 must larger than sourceVersion 2")
      (DatabaseVersion.String ⟨Cloudberry, plain 2 0 0⟩) ∧
    ¬ mentions ("Unsupported source and target versions. " ++
        "TargetVersion 1 must larger than sourceVersion 2")
      (DatabaseVersion.String ⟨Cloudberry, plain 1 0 0⟩) := by
  refine ⟨by decide, ?_, ?_, by decide, ?_, ?_⟩ <;>
    exact fun h => absurd ((strings.Contains_iff _ _).2 h) (by decide)

theorem selectTransition_of_row (row : PolicyRow) (hrow : row ∈ policyTable)
    (sM tM : Nat) (h1 : sM = row.sourceMajor) (h2 : tM = row.targetMajor) :
    ∃ sel, selectTransition sM tM = some sel ∧ sel.minSourceVersion = row.sourceFloor ∧
      sel.minTargetVersion = row.targetFloor := by
  simp only [policyTable, List.mem_cons, List.mem_singleton, List.not_mem_nil, or_false] at hrow
  rcases hrow with rfl | rfl | rfl | rfl <;>
    simp only [] at h1 h2 <;>
    subst h1 h2
  · exact ⟨⟨semver.geLtRange (plain 5 29 10) (plain 6 0 0),
      semver.geLtRange (plain 6 0 0) (plain 7 0 0), minGreenplum5xVersion,
      minGreenplum6xVersion⟩, by simp [selectTransition], rfl, rfl⟩
  · exact ⟨⟨semver.geLtRange (plain 6 0 0) (plain 7 0 0),
      semver.geLtRange (plain 6 0 0) (plain 7 0 0), minGreenplum6xVersion,
      minGreenplum6xVersion⟩, by simp [selectTransition], rfl, rfl⟩
  · exact ⟨⟨semver.geLtRange (plain 6 0 0) (plain 7 0 0),
      semver.geLtRange (plain 7 0 0) (plain 8 0 0), minGreenplum6xVersion,
      minGreenplum7xVersion⟩, by simp [selectTransition], rfl, rfl⟩
  · exact ⟨⟨semver.geLtRange (plain 7 0 0) (plain 8 0 0),
      semver.geLtRange (plain 7 0 0) (plain 8 0 0), minGreenplum7xVersion,
      minGreenplum7xVersion⟩, by simp [selectTransition], rfl, rfl⟩

theorem selectTransition_some (sM tM : Nat) (sel : Selected)
    (h : selectTransition sM tM = some sel) :
    ∃ row ∈ policyTable, sM = row.sourceMajor ∧ tM = row.targetMajor ∧
      sel.sourceRange = semver.geLtRange row.sourceLo row.sourceHi ∧
      sel.minSourceVersion = row.sourceFloor := by
  unfold selectTransition at h
  split_ifs at h with h1 h2 h3 h4
  · have e := Option.some.inj h
    subst e
    exact ⟨⟨5, 6, plain 5 29 10, plain 6 0 0, plain 6 0 0, plain 7 0 0, "5.29.10", "6.0.0"⟩,
      by simp [policyTable], h1.1, h1.2, rfl, rfl⟩
  · have e := Option.some.inj h
    subst e
    exact ⟨⟨6, 6, plain 6 0 0, plain 7 0 0, plain 6 0 0, plain 7 0 0, "6.0.0", "6.0.0"⟩,
      by simp [policyTable], h2.1, h2.2, rfl, rfl⟩
  · have e := Option.some.inj h
    subst e
    exact ⟨⟨6, 7, plain 6 0 0, plain 7 0 0, plain 7 0 0, plain 8 0 0, "6.0.0", "7.0.0"⟩,
      by simp [policyTable], h3.1, h3.2, rfl, rfl⟩
  · have e := Option.some.inj h
    subst e
    exact ⟨⟨7, 7, plain 7 0 0, plain 8 0 0, plain 7 0 0, plain 8 0 0, "7.0.0", "7.0.0"⟩,
      by simp [policyTable], h4.1, h4.2, rfl, rfl⟩

/-- C15 (amended): the rejections that name the offending versions. Take a pair
that `validate` rejects, other than a Cloudberry source with a Cloudberry or
Greenplum target, and, when it is a Greenplum pair in a row of the policy
table, with the source outside the source range of the row (a source floor
violation). Then the error text contains the rendering of the source version;
for a floor violation it contains the source floor of the row; and when no row
applies (unsupported transition, Greenplum to Cloudberry, unknown family) it
contains the rendering of the target version too. -/
theorem validate_error_names_version (s t : DatabaseVersion) (msg : String)
    (h : validate s t = some msg)
    (hx : ¬ (s.Databasetype = Cloudberry ∧
      (t.Databasetype = Cloudberry ∨ t.Databasetype = Greenplum)))
    (hfloor : ∀ row ∈ policyTable, s.Databasetype = Greenplum → t.Databasetype = Greenplum →
      s.Version.Major = row.sourceMajor → t.Version.Major = row.targetMajor →
      ¬ inRange row.sourceLo row.sourceHi s.Version) :
    mentions msg s.String ∧
    (∀ row ∈ policyTable, s.Databasetype = Greenplum → t.Databasetype = Greenplum →
      s.Version.Major = row.sourceMajor → t.Version.Major = row.targetMajor →
      mentions msg row.sourceFloor) ∧
    ((∀ row ∈ policyTable, ¬ (s.Databasetype = Greenplum ∧ t.Databasetype = Greenplum ∧
        s.Version.Major = row.sourceMajor ∧ t.Version.Major = row.targetMajor)) →
      mentions msg t.String) := by
  by_cases hgg : s.Databasetype = Greenplum ∧ t.Databasetype = Greenplum
  · cases hsel : selectTransition s.Version.Major t.Version.Major with
    | none =>
      simp only [validate, hgg, and_self, if_true, hsel, Option.some.injEq] at h
      subst h
      refine ⟨?_, ?_, fun _ => ?_⟩
      · repeat (first | exact mentions_end _ _ | apply mentions_append_right)
      · intro row hrow _ _ hsm htm
        obtain ⟨sel, hs', _, _⟩ := selectTransition_of_row row hrow _ _ hsm htm
        rw [hsel] at hs'
        exact Option.noConfusion hs'
      · repeat (first | exact mentions_end _ _ | apply mentions_append_right)
    | some sel =>
      obtain ⟨row, hrow, hsm, htm, hrange, _⟩ := selectTransition_some _ _ sel hsel
      have hout := hfloor row hrow hgg.1 hgg.2 hsm htm
      have hr : sel.sourceRange s.Version = false := by
        rw [hrange]
        exact (geLtRange_eq_false_iff _ _ _).2 hout
      simp only [validate, hgg, and_self, if_true, hsel, hr, Bool.not_false,
        Option.some.injEq] at h
      subst h
      refine ⟨?_, ?_, fun hno => ?_⟩
      · repeat (first | exact mentions_end _ _ | apply mentions_append_right)
      · intro row' hrow' _ _ hsm' htm'
        obtain ⟨sel', hs', hf, _⟩ := selectTransition_of_row row' hrow' _ _ hsm' htm'
        rw [hsel] at hs'
        have e : sel = sel' := Option.some.inj hs'
        subst e
        rw [← hf]
        repeat (first | exact mentions_end _ _ | apply mentions_append_right)
      · exact absurd ⟨hgg.1, hgg.2, hsm, htm⟩ (hno row hrow)
  · have hne : Cloudberry ≠ Greenplum := by decide
    have hboth : mentions msg s.String ∧ mentions msg t.String := by
      by_cases hcc : s.Databasetype = Cloudberry ∧ t.Databasetype = Cloudberry
      · exact absurd ⟨hcc.1, Or.inl hcc.2⟩ hx
      by_cases hgc : s.Databasetype = Greenplum ∧ t.Databasetype = Cloudberry
      · have e : validate s t = some ("Unsupported source and target versions. " ++
            "Upgrade from " ++ s.String ++ " to " ++ t.String ++ " is not supported now") := by
          simp [validate, hgc.1, hgc.2, hne, hne.symm]
        rw [e] at h
        have h' := Option.some.inj h
        subst h'
        constructor <;>
          repeat (first | exact mentions_end _ _ | apply mentions_append_right)
      by_cases hcg : s.Databasetype = Cloudberry ∧ t.Databasetype = Greenplum
      · exact absurd ⟨hcg.1, Or.inr hcg.2⟩ hx
      · have e : validate s t = some ("Unsupported source and target versions. " ++
            "Upgrade from " ++ t.String ++ " to " ++ s.String ++ " is not supported. " ++
            "Check the documentation for further information.") := by
          simp only [validate, hgg, hcc, hgc, hcg, if_false]
        rw [e] at h
        have h' := Option.some.inj h
        subst h'
        constructor <;>
          repeat (first | exact mentions_end _ _ | apply mentions_append_right)
    exact ⟨hboth.1, fun row _ hs ht _ _ => absurd ⟨hs, ht⟩ hgg, fun _ => hboth.2⟩

/-- Witness of `validate_error_names_version`: `Greenplum 5.29.9 -> Greenplum
6.0.0`, a source floor violation in the row `(5,6)`; the text names the source
version and the floor `5.29.10`. -/
theorem validate_error_names_version_witness :
    validate ⟨Greenplum, plain 5 29 9⟩ ⟨Greenplum, plain 6 0 0⟩ =
      some ("Source cluster version Greenplum 5.29.9 is not supported. " ++
        "The minimum required version is 5.29.10. We recommend the latest version.") ∧
    ¬ inRange (plain 5 29 10) (plain 6 0 0) (plain 5 29 9) ∧
    mentions ("Source cluster version Greenplum 5.29.9 is not supported. " ++
        "The minimum required version is 5.29.10. We recommend the latest version.")
      (DatabaseVersion.String ⟨Greenplum, plain 5 29 9⟩) ∧
    mentions ("Source cluster version Greenplum 5.29.9 is not supported. " ++
        "The minimum required version is 5.29.10. We recommend the latest version.")
      "5.29.10" :=
  have hthm := validate_error_names_version ⟨Greenplum, plain 5 29 9⟩ ⟨Greenplum, plain 6 0 0⟩
    ("Source cluster version Greenplum 5.29.9 is not supported. " ++
      "The minimum required version is 5.29.10. We recommend the latest version.")
    (by decide) (by decide)
    (by
      intro row hrow _ _ hsm htm
      simp only [policyTable, List.mem_cons, List.mem_singleton, List.not_mem_nil,
        or_false] at hrow
      rcases hrow with rfl | rfl | rfl | rfl
      · decide
      · exact absurd hsm (by decide)
      · exact absurd hsm (by decide)
      · exact absurd hsm (by decide))
  ⟨by decide, by decide, hthm.1,
    hthm.2.1 ⟨5, 6, plain 5 29 10, plain 6 0 0, plain 6 0 0, plain 7 0 0, "5.29.10", "6.0.0"⟩
      (by simp [policyTable]) rfl rfl rfl rfl⟩

end greenplum

/-! ## The tolerant parser on canonical numerals -/

namespace strings

theorem TrimSpace_id (s : List Char) (h1 : ∀ c ∈ s.head?, isSpace c = false)
    (h2 : ∀ c ∈ s.getLast?, isSpace c = false) : TrimSpace s = s := by
  unfold TrimSpace
  have hd : List.dropWhile isSpace s = s := by
    cases s with
    | nil => rfl
    | cons x xs =>
      have hx : isSpace x = false := h1 x (by simp)
      simp [List.dropWhile, hx]
  rw [hd, List.rdropWhile_eq_self_iff]
  intro hl
  have := h2 (s.getLast hl) (by simp [List.getLast?_eq_getLast s hl])
  simp [this]

theorem SplitN_two_dots (X Y : List Char) (hX : '.' ∉ X) (hY : '.' ∉ Y) :
    SplitN (X ++ '.' :: Y) ['.'] 3 = [X, Y] := by
  have h1 := Index_char_first '.' Y X hX
  have h2 := Index_char_none '.' Y hY
  have d1 : List.drop (X.length + 1) (X ++ '.' :: Y) = Y := by
    rw [List.drop_append_eq_append_drop]
    simp
  simp only [SplitN, h1, h2, List.length_singleton, d1, List.take_left']

theorem SplitN_char_first (ch : Char) (X Y : List Char) (hX : ch ∉ X) :
    SplitN (X ++ ch :: Y) [ch] 2 = [X, Y] := by
  have h1 := Index_char_first ch Y X hX
  have d1 : List.drop (X.length + 1) (X ++ ch :: Y) = Y := by
    rw [List.drop_append_eq_append_drop]
    simp
  simp only [SplitN, h1, List.length_singleton, d1, List.take_left']

theorem SplitN_char_none (ch : Char) (X : List Char) (hX : ch ∉ X) :
    SplitN X [ch] 2 = [X] := by
  simp only [SplitN, Index_char_none ch X hX]

theorem exists_first_split (ch : Char) : ∀ A : List Char, ch ∈ A →
    ∃ p0 p1, A = p0 ++ ch :: p1 ∧ ch ∉ p0 := by
  intro A
  induction A with
  | nil => intro h; simp at h
  | cons x xs ih =>
    intro h
    by_cases hx : ch = x
    · exact ⟨[], xs, by simp [hx], by simp⟩
    · have hmem : ch ∈ xs := by
        rcases List.mem_cons.1 h with h | h
        · exact absurd h hx
        · exact h
      obtain ⟨p0, p1, e, hn⟩ := ih hmem
      refine ⟨x :: p0, p1, by simp [e], ?_⟩
      intro hc
      rcases List.mem_cons.1 hc with hc | hc
      · exact hx hc
      · exact hn hc

end strings

namespace semver

theorem repr_cons (n : Nat) :
    ∃ x xs, (toString n).data = x :: xs ∧ x.isDigit = true ∧ (xs ≠ [] → x ≠ '0') := by
  obtain ⟨hne, hdig, _, hz, hhead⟩ := strconv.repr_spec n
  cases hd : (toString n).data with
  | nil => exact absurd hd hne
  | cons x xs =>
    refine ⟨x, xs, rfl, hdig x (by rw [hd]; simp), ?_⟩
    intro hxs hx0
    by_cases h0 : n = 0
    · have := hz h0
      rw [hd] at this
      simp only [List.cons.injEq] at this
      exact hxs this.2
    · have := hhead h0
      rw [hd, hx0] at this
      simp at this

/-- The zero-trimming loop of `ParseTolerant` leaves a canonical decimal
numeral as it is. -/
theorem utf8Size_digit (c : Char) (h : c.isDigit = true) : c.utf8Size = 1 := by
  obtain ⟨h1, h2⟩ := isDigit_bounds c h
  have hc : c = Char.ofNat c.toNat := (Char.ofNat_toNat c).symm
  generalize c.toNat = n at h1 h2 hc
  subst hc
  interval_cases n <;> rfl

theorem byteLen_eq_zero (s : List Char) (h : strings.byteLen s = 0) : s = [] := by
  cases s with
  | nil => rfl
  | cons x xs =>
    have := Char.utf8Size_pos x
    simp only [strings.byteLen] at h
    omega

theorem trimLeadingZeros_repr (n : Nat) :
    trimLeadingZeros (toString n).data = (toString n).data := by
  obtain ⟨x, xs, hd, hdig, hx0⟩ := repr_cons n
  rw [hd]
  unfold trimLeadingZeros
  have hsize : strings.byteLen (x :: xs) = 1 + strings.byteLen xs := by
    simp only [strings.byteLen, utf8Size_digit x hdig]
  by_cases hlen : strings.byteLen (x :: xs) > 1
  · have hxs : xs ≠ [] := by
      intro e
      subst e
      rw [hsize] at hlen
      simp [strings.byteLen] at hlen
    have hx : ¬ x = '0' := hx0 hxs
    have hx' : ¬ '0' = x := fun e => hx e.symm
    have hmem : x ∈ numbers := by
      simpa using mem_numbers_of_isDigit x hdig
    simp [hlen, strings.TrimLeft, List.dropWhile, hx, hx', strings.ContainsAny, hmem]
  · simp [hlen]

theorem digit_ends (n : Nat) :
    (∀ c ∈ (toString n).data.head?, c.isDigit = true) ∧
    (∀ c ∈ (toString n).data.getLast?, c.isDigit = true) := by
  have hdig := (strconv.repr_spec n).2.1
  exact ⟨fun c hc => hdig c (List.mem_of_mem_head? hc),
    fun c hc => hdig c (List.mem_of_mem_getLast? hc)⟩

end semver

namespace semver

theorem pairText_eq (a b : Nat) :
    greenplum.pairText a b = (toString a).data ++ '.' :: (toString b).data := by
  simp [greenplum.pairText, String.data_append]

theorem TrimPrefix_v_digit (s : List Char) (h : ∀ c ∈ s.head?, c.isDigit = true) :
    strings.TrimPrefix s ['v'] = s := by
  cases s with
  | nil => rfl
  | cons x xs =>
    have hx : x.isDigit = true := h x (by simp)
    have hne : ¬ 'v' = x := by
      intro e
      rw [← e] at hx
      exact absurd hx (by decide)
    simp [strings.TrimPrefix, List.isPrefixOf, hne]

theorem TrimPrefix_v_cons (s : List Char) : strings.TrimPrefix ('v' :: s) ['v'] = s := by
  simp [strings.TrimPrefix, List.isPrefixOf]

/-- After trimming and the removal of `v`, the text `a.b.c` of canonical
numerals below `2^64` is read as the plain version `a.b.c`. -/
theorem tolerant_core_triple (q : Fmt) (a b c : Nat)
    (ha : a < 2 ^ 64) (hb : b < 2 ^ 64) (hc : c < 2 ^ 64) :
    (let parts := (strings.SplitN (greenplum.tripleText a b c) ['.'] 3).map trimLeadingZeros
     if parts.length < 3 then
       if strings.ContainsAny (parts.getLastD []) ['+', '-'] then
         .error "Short version cannot contain PreRelease/Build meta data"
       else Parse q (strings.Join ['.'] (fillUp parts))
     else Parse q (strings.Join ['.'] parts)) = .ok ⟨a, b, c, [], []⟩ := by
  have da := (strconv.repr_spec a).2.1
  have db := (strconv.repr_spec b).2.1
  have hsplit := strings.SplitN_three_dots (toString a).data (toString b).data (toString c).data
    (not_mem_of_digits '.' (by decide) _ da) (not_mem_of_digits '.' (by decide) _ db)
  have e := greenplum.tripleText_eq a b c
  have hparse := Parse_tripleText q a b c ha hb hc
  rw [e] at hparse ⊢
  simp only [hsplit, List.map, trimLeadingZeros_repr, List.length_cons, List.length_nil]
  simpa [strings.Join] using hparse

theorem tolerant_core_pair (q : Fmt) (a b : Nat) (ha : a < 2 ^ 64) (hb : b < 2 ^ 64) :
    (let parts := (strings.SplitN (greenplum.pairText a b) ['.'] 3).map trimLeadingZeros
     if parts.length < 3 then
       if strings.ContainsAny (parts.getLastD []) ['+', '-'] then
         .error "Short version cannot contain PreRelease/Build meta data"
       else Parse q (strings.Join ['.'] (fillUp parts))
     else Parse q (strings.Join ['.'] parts)) = .ok ⟨a, b, 0, [], []⟩ := by
  have da := (strconv.repr_spec a).2.1
  have db := (strconv.repr_spec b).2.1
  have hsplit := strings.SplitN_two_dots (toString a).data (toString b).data
    (not_mem_of_digits '.' (by decide) _ da) (not_mem_of_digits '.' (by decide) _ db)
  have hplus : '+' ∉ (toString b).data := not_mem_of_digits '+' (by decide) _ db
  have hminus : '-' ∉ (toString b).data := not_mem_of_digits '-' (by decide) _ db
  have hany : strings.ContainsAny (toString b).data ['+', '-'] = false := by
    unfold strings.ContainsAny
    rw [Bool.eq_false_iff, ne_eq, List.any_eq_true]
    rintro ⟨x, hx, hc⟩
    simp only [List.contains_cons, List.contains_nil, Bool.or_false, Bool.or_eq_true,
      beq_iff_eq] at hc
    rcases hc with hc | hc
    · exact hplus (hc ▸ hx)
    · exact hminus (hc ▸ hx)
  have e := pairText_eq a b
  have hparse := Parse_tripleText q a b 0 ha hb (by norm_num)
  have e3 := greenplum.tripleText_eq a b 0
  have z : (toString 0).data = ['0'] := by decide
  rw [e3, z] at hparse
  rw [e]
  simp only [hsplit, List.map, trimLeadingZeros_repr, List.length_cons, List.length_nil]
  simpa [strings.Join, fillUp, hany] using hparse

end semver

namespace semver

theorem ends_digit (A M C : List Char) (hA : A ≠ []) (hC : C ≠ [])
    (dA : ∀ c ∈ A, c.isDigit = true) (dC : ∀ c ∈ C, c.isDigit = true) :
    (∀ c ∈ (A ++ (M ++ C)).head?, c.isDigit = true) ∧
    (∀ c ∈ (A ++ (M ++ C)).getLast?, c.isDigit = true) := by
  constructor
  · intro c hc
    rw [List.head?_append_of_ne_nil A hA] at hc
    exact dA c (List.mem_of_mem_head? hc)
  · intro c hc
    rw [← List.append_assoc, List.getLast?_append_of_ne_nil _ hC] at hc
    exact dC c (List.mem_of_mem_getLast? hc)

theorem tripleText_ends (a b c : Nat) :
    (∀ x ∈ (greenplum.tripleText a b c).head?, x.isDigit = true) ∧
    (∀ x ∈ (greenplum.tripleText a b c).getLast?, x.isDigit = true) := by
  have h := ends_digit (toString a).data ('.' :: ((toString b).data ++ ['.'])) (toString c).data
    (strconv.repr_spec a).1 (strconv.repr_spec c).1 (strconv.repr_spec a).2.1
    (strconv.repr_spec c).2.1
  have e : greenplum.tripleText a b c = (toString a).data ++
      ('.' :: ((toString b).data ++ ['.']) ++ (toString c).data) := by
    rw [greenplum.tripleText_eq]; simp
  rw [e]
  exact h

theorem pairText_ends (a b : Nat) :
    (∀ x ∈ (greenplum.pairText a b).head?, x.isDigit = true) ∧
    (∀ x ∈ (greenplum.pairText a b).getLast?, x.isDigit = true) := by
  have h := ends_digit (toString a).data ['.'] (toString b).data
    (strconv.repr_spec a).1 (strconv.repr_spec b).1 (strconv.repr_spec a).2.1
    (strconv.repr_spec b).2.1
  have e : greenplum.pairText a b = (toString a).data ++ (['.'] ++ (toString b).data) := by
    rw [pairText_eq]; simp
  rw [e]
  exact h

theorem TrimSpace_digit_ends (s : List Char) (h1 : ∀ c ∈ s.head?, c.isDigit = true)
    (h2 : ∀ c ∈ s.getLast?, c.isDigit = true) : strings.TrimSpace s = s :=
  strings.TrimSpace_id s (fun c hc => greenplum.isSpace_of_isDigit c (h1 c hc))
    (fun c hc => greenplum.isSpace_of_isDigit c (h2 c hc))

theorem TrimSpace_v_digit_end (s : List Char) (hne : s ≠ [])
    (h2 : ∀ c ∈ s.getLast?, c.isDigit = true) : strings.TrimSpace ('v' :: s) = 'v' :: s := by
  apply strings.TrimSpace_id
  · intro c hc
    have : c = 'v' := by simpa using hc.symm
    subst this
    decide
  · intro c hc
    have e : ('v' :: s).getLast? = s.getLast? := by
      have := List.getLast?_append_of_ne_nil ['v'] hne
      simpa using this
    rw [e] at hc
    exact greenplum.isSpace_of_isDigit c (h2 c hc)

theorem tripleText_ne_nil (a b c : Nat) : greenplum.tripleText a b c ≠ [] := by
  rw [greenplum.tripleText_eq]
  have := (strconv.repr_spec a).1
  simp [this]

theorem pairText_ne_nil (a b : Nat) : greenplum.pairText a b ≠ [] := by
  rw [pairText_eq]
  have := (strconv.repr_spec a).1
  simp [this]

/-- `ParseTolerant` on `a.b.c`. -/
theorem ParseTolerant_tripleText (q : Fmt) (a b c : Nat)
    (ha : a < 2 ^ 64) (hb : b < 2 ^ 64) (hc : c < 2 ^ 64) :
    ParseTolerant q (greenplum.tripleText a b c) = .ok ⟨a, b, c, [], []⟩ := by
  unfold ParseTolerant
  dsimp only
  rw [TrimSpace_digit_ends _ (tripleText_ends a b c).1 (tripleText_ends a b c).2,
    TrimPrefix_v_digit _ (tripleText_ends a b c).1]
  exact tolerant_core_triple q a b c ha hb hc

/-- `ParseTolerant` on `va.b.c`: the leading `v` is dropped. -/
theorem ParseTolerant_v_tripleText (q : Fmt) (a b c : Nat)
    (ha : a < 2 ^ 64) (hb : b < 2 ^ 64) (hc : c < 2 ^ 64) :
    ParseTolerant q ('v' :: greenplum.tripleText a b c) = .ok ⟨a, b, c, [], []⟩ := by
  unfold ParseTolerant
  dsimp only
  rw [TrimSpace_v_digit_end _ (tripleText_ne_nil a b c) (tripleText_ends a b c).2,
    TrimPrefix_v_cons]
  exact tolerant_core_triple q a b c ha hb hc

/-- `ParseTolerant` on `a.b`: the missing patch is read as `0`. -/
theorem ParseTolerant_pairText (q : Fmt) (a b : Nat) (ha : a < 2 ^ 64) (hb : b < 2 ^ 64) :
    ParseTolerant q (greenplum.pairText a b) = .ok ⟨a, b, 0, [], []⟩ := by
  unfold ParseTolerant
  dsimp only
  rw [TrimSpace_digit_ends _ (pairText_ends a b).1 (pairText_ends a b).2,
    TrimPrefix_v_digit _ (pairText_ends a b).1]
  exact tolerant_core_pair q a b ha hb

/-- `ParseTolerant` on `va.b`. -/
theorem ParseTolerant_v_pairText (q : Fmt) (a b : Nat) (ha : a < 2 ^ 64) (hb : b < 2 ^ 64) :
    ParseTolerant q ('v' :: greenplum.pairText a b) = .ok ⟨a, b, 0, [], []⟩ := by
  unfold ParseTolerant
  dsimp only
  rw [TrimSpace_v_digit_end _ (pairText_ne_nil a b) (pairText_ends a b).2, TrimPrefix_v_cons]
  exact tolerant_core_pair q a b ha hb

end semver

namespace greenplum

theorem isSpace_space : strings.isSpace ' ' = true := by decide

/-- `ParseDatabaseVersion` on a type token, one space and a version text without
white space around it. -/
theorem ParseDatabaseVersion_ok (q : Fmt) (t : CaseTable) (s : String)
    (tok ver : List Char) (ty : DatabaseType) (v : semver.Version)
    (hs : s.data = tok ++ ' ' :: ver)
    (htok : ∀ c ∈ tok, strings.isSpace c = false) (hne : tok ≠ [])
    (hv1 : ∀ c ∈ ver.head?, strings.isSpace c = false)
    (hv2 : ∀ c ∈ ver.getLast?, strings.isSpace c = false) (hvne : ver ≠ [])
    (hty : parseType (strings.ToLower t tok) = some ty)
    (hv : semver.ParseTolerant q ver = .ok v) :
    ParseDatabaseVersion q t s = (⟨ty, v⟩, none) := by
  have hsp : ' ' ∉ tok := by
    intro h
    have := htok ' ' h
    rw [isSpace_space] at this
    exact Bool.noConfusion this
  have t1 : strings.TrimSpace (tok ++ ' ' :: ver) = tok ++ ' ' :: ver := by
    apply strings.TrimSpace_id
    · intro c hc
      rw [List.head?_append_of_ne_nil tok hne] at hc
      exact htok c (List.mem_of_mem_head? hc)
    · intro c hc
      have e : (tok ++ ' ' :: ver).getLast? = ver.getLast? := by
        have := List.getLast?_append_of_ne_nil (tok ++ [' ']) hvne
        simpa using this
      rw [e] at hc
      exact hv2 c hc
  have t2 : strings.TrimSpace tok = tok :=
    strings.TrimSpace_id tok (fun c hc => htok c (List.mem_of_mem_head? hc))
      (fun c hc => htok c (List.mem_of_mem_getLast? hc))
  have t3 : strings.TrimSpace ver = ver := strings.TrimSpace_id ver hv1 hv2
  have hsplit := strings.SplitN_char_first ' ' tok ver hsp
  unfold ParseDatabaseVersion
  simp only [hs, t1, hsplit, t2, hty, t3, hv]

end greenplum

/-! ## The compact form -/

namespace greenplum

theorem ToLower_Greenplum (t : CaseTable) :
    strings.ToLower t "Greenplum".data = "greenplum".data := by rfl

theorem ToLower_Cloudberry (t : CaseTable) :
    strings.ToLower t "Cloudberry".data = "cloudberry".data := by rfl

theorem ParseTolerant_nil (q : Fmt) (v : semver.Version) :
    semver.ParseTolerant q [] ≠ .ok v := by
  simp [semver.ParseTolerant, strings.TrimSpace, strings.TrimPrefix, strings.SplitN,
    strings.Index, semver.trimLeadingZeros, strings.ContainsAny, semver.fillUp, strings.Join,
    semver.Parse, semver.parseNumber, semver.containsOnly, semver.hasLeadingZeroes,
    strconv.ParseUint, List.rdropWhile, strings.byteLen]

end greenplum

namespace greenplum

theorem String_data_plain (ty : DatabaseType) (name : String) (a b c : Nat)
    (hname : (if ty = Greenplum then "Greenplum"
      else if ty = Cloudberry then "Cloudberry" else "Unknown") = name) :
    (DatabaseVersion.String ⟨ty, ⟨a, b, c, [], []⟩⟩).data = name.data ++ ' ' :: tripleText a b c := by
  simp only [DatabaseVersion.String, semver.Version.String, hname, tripleText,
    String.data_append]
  simp

/-- C12: the compact-form round trip. For a Greenplum or Cloudberry value whose
version has no pre-release identifier and no build metadata (its three numbers
being `uint64` values), parsing the text that `String` produces succeeds and
gives the value back. -/
theorem ParseDatabaseVersion_String (q : Fmt) (t : CaseTable) (dv : DatabaseVersion)
    (hfam : dv.Databasetype = Greenplum ∨ dv.Databasetype = Cloudberry)
    (hpre : dv.Version.Pre = []) (hbuild : dv.Version.Build = [])
    (h1 : dv.Version.Major < 2 ^ 64) (h2 : dv.Version.Minor < 2 ^ 64)
    (h3 : dv.Version.Patch < 2 ^ 64) :
    ParseDatabaseVersion q t dv.String = (dv, none) := by
  obtain ⟨ty, ⟨a, b, c, pre, build⟩⟩ := dv
  simp only at hfam hpre hbuild h1 h2 h3
  subst hpre hbuild
  have hv := semver.ParseTolerant_tripleText q a b c h1 h2 h3
  have ends := semver.tripleText_ends a b c
  have hv1 : ∀ x ∈ (tripleText a b c).head?, strings.isSpace x = false :=
    fun x hx => isSpace_of_isDigit x (ends.1 x hx)
  have hv2 : ∀ x ∈ (tripleText a b c).getLast?, strings.isSpace x = false :=
    fun x hx => isSpace_of_isDigit x (ends.2 x hx)
  rcases hfam with rfl | rfl
  · exact ParseDatabaseVersion_ok q t _ "Greenplum".data (tripleText a b c) Greenplum _
      (String_data_plain Greenplum "Greenplum" a b c rfl) (by decide) (by decide) hv1 hv2
      (semver.tripleText_ne_nil a b c) (by rw [ToLower_Greenplum]; rfl) hv
  · exact ParseDatabaseVersion_ok q t _ "Cloudberry".data (tripleText a b c) Cloudberry _
      (String_data_plain Cloudberry "Cloudberry" a b c rfl) (by decide) (by decide) hv1 hv2
      (semver.tripleText_ne_nil a b c) (by rw [ToLower_Cloudberry]; rfl) hv

/-- Witness of `ParseDatabaseVersion_String`: `Cloudberry 1.4.0`. -/
theorem ParseDatabaseVersion_String_witness :
    DatabaseVersion.String ⟨Cloudberry, plain 1 4 0⟩ = "Cloudberry 1.4.0" ∧
    ParseDatabaseVersion plainFmt plainCase (DatabaseVersion.String ⟨Cloudberry, plain 1 4 0⟩) =
      (⟨Cloudberry, plain 1 4 0⟩, none) :=
  ⟨by decide,
    ParseDatabaseVersion_String plainFmt plainCase ⟨Cloudberry, plain 1 4 0⟩ (Or.inr rfl)
      rfl rfl (by norm_num [plain]) (by norm_num [plain]) (by norm_num [plain])⟩

/-- C13: the family name is matched without regard to case. For a type token
(no white space in it) followed by one space and a version text that the
tolerant parser accepts, the result has family Greenplum when the lower-cased
token is `greenplum` and family Cloudberry when it is `cloudberry`; the version
is the one the tolerant parser reads from the version text alone. -/
theorem ParseDatabaseVersion_any_case (q : Fmt) (t : CaseTable) (tok ver : List Char)
    (v : semver.Version)
    (htok : ∀ c ∈ tok, strings.isSpace c = false)
    (hv1 : ∀ c ∈ ver.head?, strings.isSpace c = false)
    (hv2 : ∀ c ∈ ver.getLast?, strings.isSpace c = false)
    (hv : semver.ParseTolerant q ver = .ok v) :
    (strings.ToLower t tok = "greenplum".data →
      ParseDatabaseVersion q t (String.mk (tok ++ ' ' :: ver)) = (⟨Greenplum, v⟩, none)) ∧
    (strings.ToLower t tok = "cloudberry".data →
      ParseDatabaseVersion q t (String.mk (tok ++ ' ' :: ver)) = (⟨Cloudberry, v⟩, none)) := by
  have hvne : ver ≠ [] := by
    intro e
    rw [e] at hv
    exact ParseTolerant_nil q v hv
  have hne : ∀ l : List Char, l ≠ [] → strings.ToLower t tok = l → tok ≠ [] := by
    intro l hl h e
    rw [e] at h
    exact hl h.symm
  constructor
  · intro h
    exact ParseDatabaseVersion_ok q t _ tok ver Greenplum v rfl htok
      (hne _ (by decide) h) hv1 hv2 hvne (by rw [h]; rfl) hv
  · intro h
    exact ParseDatabaseVersion_ok q t _ tok ver Cloudberry v rfl htok
      (hne _ (by decide) h) hv1 hv2 hvne (by rw [h]; rfl) hv

/-- Witness of `ParseDatabaseVersion_any_case`: `gReEnPlUm 6.3.0` and
`CLOUDBERRY 6.3.0`. -/
theorem ParseDatabaseVersion_any_case_witness :
    ParseDatabaseVersion plainFmt plainCase
        (String.mk ("gReEnPlUm".data ++ ' ' :: "6.3.0".data)) =
      (⟨Greenplum, plain 6 3 0⟩, none) ∧
    ParseDatabaseVersion plainFmt plainCase
        (String.mk ("CLOUDBERRY".data ++ ' ' :: "6.3.0".data)) =
      (⟨Cloudberry, plain 6 3 0⟩, none) :=
  ⟨(ParseDatabaseVersion_any_case plainFmt plainCase "gReEnPlUm".data "6.3.0".data
      (plain 6 3 0) (by decide) (by decide) (by decide) (by rfl)).1 (by decide),
    (ParseDatabaseVersion_any_case plainFmt plainCase "CLOUDBERRY".data "6.3.0".data
      (plain 6 3 0) (by decide) (by decide) (by decide) (by rfl)).2 (by decide)⟩

/-- C16 as stated fails for a number that does not fit `uint64`: the input
`Greenplum 18446744073709551616.0` has the form `F a.b` with `a = 2^64`, and
`ParseDatabaseVersion` returns the invalid-version error. -/
theorem ParseDatabaseVersion_rejects_large_number :
    String.mk ("Greenplum".data ++ ' ' :: pairText 18446744073709551616 0) =
      "Greenplum 18446744073709551616.0" ∧
    ParseDatabaseVersion plainFmt plainCase "Greenplum 18446744073709551616.0" =
      (zeroDatabaseVersion,
        some ("invalid version format \"18446744073709551616.0\": " ++
          "strconv.ParseUint: parsing \"18446744073709551616\": value out of range")) := by
  decide

/-- C16 (amended): the version part is parsed tolerantly. For a recognised type token and
numbers `a`, `b`, `c` that fit `uint64`, the inputs `F va.b.c`, `F a.b` and
`F va.b` are accepted: the leading `v` is ignored and the missing patch is read
as `0`, so `F va.b` and `F a.b` give the value of `F a.b.0`. -/
theorem ParseDatabaseVersion_tolerant (q : Fmt) (t : CaseTable) (tok : List Char)
    (ty : DatabaseType) (a b c : Nat)
    (htok : ∀ x ∈ tok, strings.isSpace x = false)
    (hty : parseType (strings.ToLower t tok) = some ty)
    (ha : a < 2 ^ 64) (hb : b < 2 ^ 64) (hc : c < 2 ^ 64) :
    ParseDatabaseVersion q t (String.mk (tok ++ ' ' :: 'v' :: tripleText a b c)) =
      (⟨ty, plain a b c⟩, none) ∧
    ParseDatabaseVersion q t (String.mk (tok ++ ' ' :: pairText a b)) =
      (⟨ty, plain a b 0⟩, none) ∧
    ParseDatabaseVersion q t (String.mk (tok ++ ' ' :: 'v' :: pairText a b)) =
      (⟨ty, plain a b 0⟩, none) ∧
    ParseDatabaseVersion q t (String.mk (tok ++ ' ' :: tripleText a b 0)) =
      (⟨ty, plain a b 0⟩, none) := by
  have hne : tok ≠ [] := by
    intro e
    rw [e] at hty
    simp [parseType, strings.ToLower] at hty
  have sp : ∀ (s : List Char), (∀ x ∈ s.getLast?, x.isDigit = true) →
      ∀ x ∈ s.getLast?, strings.isSpace x = false :=
    fun s h x hx => isSpace_of_isDigit x (h x hx)
  have sph : ∀ (s : List Char), (∀ x ∈ s.head?, x.isDigit = true) →
      ∀ x ∈ s.head?, strings.isSpace x = false :=
    fun s h x hx => isSpace_of_isDigit x (h x hx)
  have vhead : ∀ s : List Char, ∀ x ∈ ('v' :: s).head?, strings.isSpace x = false := by
    intro s x hx
    have : x = 'v' := by simpa using hx.symm
    subst this
    decide
  have vlast : ∀ s : List Char, s ≠ [] → ('v' :: s).getLast? = s.getLast? := by
    intro s hs
    have := List.getLast?_append_of_ne_nil ['v'] hs
    simpa using this
  refine ⟨?_, ?_, ?_, ?_⟩
  · refine ParseDatabaseVersion_ok q t _ tok ('v' :: tripleText a b c) ty _ rfl htok hne
      (vhead _) ?_ (by simp) hty (semver.ParseTolerant_v_tripleText q a b c ha hb hc)
    rw [vlast _ (semver.tripleText_ne_nil a b c)]
    exact sp _ (semver.tripleText_ends a b c).2
  · exact ParseDatabaseVersion_ok q t _ tok (pairText a b) ty _ rfl htok hne
      (sph _ (semver.pairText_ends a b).1) (sp _ (semver.pairText_ends a b).2)
      (semver.pairText_ne_nil a b) hty (semver.ParseTolerant_pairText q a b ha hb)
  · refine ParseDatabaseVersion_ok q t _ tok ('v' :: pairText a b) ty _ rfl htok hne
      (vhead _) ?_ (by simp) hty (semver.ParseTolerant_v_pairText q a b ha hb)
    rw [vlast _ (semver.pairText_ne_nil a b)]
    exact sp _ (semver.pairText_ends a b).2
  · exact ParseDatabaseVersion_ok q t _ tok (tripleText a b 0) ty _ rfl htok hne
      (sph _ (semver.tripleText_ends a b 0).1) (sp _ (semver.tripleText_ends a b 0).2)
      (semver.tripleText_ne_nil a b 0) hty
      (semver.ParseTolerant_tripleText q a b 0 ha hb (by norm_num))

/-- Witness of `ParseDatabaseVersion_tolerant`: `Greenplum v6.3.1`,
`Greenplum 6.3`, `Greenplum v6.3` and `Greenplum 6.3.0`. -/
theorem ParseDatabaseVersion_tolerant_witness :
    String.mk ("Greenplum".data ++ ' ' :: 'v' :: pairText 6 3) = "Greenplum v6.3" ∧
    ParseDatabaseVersion plainFmt plainCase
        (String.mk ("Greenplum".data ++ ' ' :: 'v' :: pairText 6 3)) =
      (⟨Greenplum, plain 6 3 0⟩, none) ∧
    ParseDatabaseVersion plainFmt plainCase
        (String.mk ("Greenplum".data ++ ' ' :: tripleText 6 3 0)) =
      (⟨Greenplum, plain 6 3 0⟩, none) :=
  ⟨by decide,
    (ParseDatabaseVersion_tolerant plainFmt plainCase "Greenplum".data Greenplum 6 3 1
      (by decide) (by decide) (by norm_num) (by norm_num) (by norm_num)).2.2.1,
    (ParseDatabaseVersion_tolerant plainFmt plainCase "Greenplum".data Greenplum 6 3 1
      (by decide) (by decide) (by norm_num) (by norm_num) (by norm_num)).2.2.2⟩

end greenplum

namespace greenplum

theorem ParseDatabaseVersion_no_space (q : Fmt) (t : CaseTable) (s : String)
    (h : ' ' ∉ strings.TrimSpace s.data) :
    ParseDatabaseVersion q t s =
      (zeroDatabaseVersion,
        some ("invalid database version format: " ++
          q.quote (String.mk (strings.TrimSpace s.data)) ++ ", expected 'Type Version'")) := by
  unfold ParseDatabaseVersion
  simp only [strings.SplitN_char_none ' ' _ h]

theorem ParseDatabaseVersion_unknown (q : Fmt) (t : CaseTable) (s : String)
    (p0 p1 : List Char)
    (hs : strings.TrimSpace s.data = p0 ++ ' ' :: p1) (h : ' ' ∉ p0)
    (hty : parseType (strings.ToLower t (strings.TrimSpace p0)) = none) :
    ParseDatabaseVersion q t s =
      (zeroDatabaseVersion,
        some ("unknown database type: " ++ String.mk (strings.TrimSpace p0))) := by
  unfold ParseDatabaseVersion
  simp only [hs, strings.SplitN_char_first ' ' p0 p1 h, hty]

theorem ParseDatabaseVersion_bad_version (q : Fmt) (t : CaseTable) (s : String)
    (p0 p1 : List Char) (ty : DatabaseType) (err : String)
    (hs : strings.TrimSpace s.data = p0 ++ ' ' :: p1) (h : ' ' ∉ p0)
    (hty : parseType (strings.ToLower t (strings.TrimSpace p0)) = some ty)
    (hv : semver.ParseTolerant q (strings.TrimSpace p1) = .error err) :
    ParseDatabaseVersion q t s =
      (zeroDatabaseVersion,
        some ("invalid version format " ++ q.quote (String.mk (strings.TrimSpace p1)) ++
          ": " ++ err)) := by
  unfold ParseDatabaseVersion
  simp only [hs, strings.SplitN_char_first ' ' p0 p1 h, hty, hv]

theorem ParseDatabaseVersion_good (q : Fmt) (t : CaseTable) (s : String)
    (p0 p1 : List Char) (ty : DatabaseType) (v : semver.Version)
    (hs : strings.TrimSpace s.data = p0 ++ ' ' :: p1) (h : ' ' ∉ p0)
    (hty : parseType (strings.ToLower t (strings.TrimSpace p0)) = some ty)
    (hv : semver.ParseTolerant q (strings.TrimSpace p1) = .ok v) :
    ParseDatabaseVersion q t s = (⟨ty, v⟩, none) := by
  unfold ParseDatabaseVersion
  simp only [hs, strings.SplitN_char_first ' ' p0 p1 h, hty, hv]

theorem startsWith_none (start : String) : ¬ startsWith start none := by
  rintro ⟨m, h, _⟩
  exact Option.noConfusion h

theorem startsWith_self (start rest : String) : startsWith start (some (start ++ rest)) :=
  ⟨_, rfl, by rw [String.data_append]; exact List.prefix_append _ _⟩

theorem startsWith_append {start m : String} (rest : String)
    (h : startsWith start (some m)) : startsWith start (some (m ++ rest)) := by
  obtain ⟨m', e, hp⟩ := h
  have e' : m = m' := Option.some.inj e
  subst e'
  exact ⟨_, rfl, by rw [String.data_append]; exact hp.trans (List.prefix_append _ _)⟩

theorem not_startsWith_of_differ (a b : String) (rest : String) (n : Nat)
    (hlen : n < a.data.length) (hlen' : n < b.data.length)
    (hd : a.data[n]? ≠ b.data[n]?) :
    ¬ startsWith a (some (b ++ rest)) := by
  rintro ⟨m, e, hp⟩
  have e' : b ++ rest = m := Option.some.inj e
  subst e'
  rw [String.data_append] at hp
  obtain ⟨w, hw⟩ := hp
  apply hd
  have h1 : (a.data ++ w)[n]? = a.data[n]? := List.getElem?_append_left hlen
  have h2 : (b.data ++ rest.data)[n]? = b.data[n]? := List.getElem?_append_left hlen'
  rw [← h1, ← h2, hw]

theorem not_format_of_unknown (x : String) :
    ¬ startsWith "invalid database version format: " (some ("unknown database type: " ++ x)) :=
  not_startsWith_of_differ _ _ x 0 (by decide) (by decide) (by decide)

theorem not_format_of_version (x : String) :
    ¬ startsWith "invalid database version format: " (some ("invalid version format " ++ x)) :=
  not_startsWith_of_differ _ _ x 8 (by decide) (by decide) (by decide)

theorem not_unknown_of_version (x : String) :
    ¬ startsWith "unknown database type: " (some ("invalid version format " ++ x)) :=
  not_startsWith_of_differ _ _ x 0 (by decide) (by decide) (by decide)

theorem not_version_of_unknown (x : String) :
    ¬ startsWith "invalid version format " (some ("unknown database type: " ++ x)) :=
  not_startsWith_of_differ _ _ x 0 (by decide) (by decide) (by decide)

theorem parseType_eq_none_iff (L : List Char) :
    parseType L = none ↔
      L ≠ "greenplum".data ∧ L ≠ "Greenplum".data ∧
      L ≠ "cloudberry".data ∧ L ≠ "Cloudberry".data := by
  unfold parseType
  constructor
  · intro h
    split_ifs at h with h1 h2
    exact ⟨fun e => h1 (Or.inr e), fun e => h1 (Or.inl e), fun e => h2 (Or.inr e),
      fun e => h2 (Or.inl e)⟩
  · rintro ⟨a, b, c, d⟩
    have h1 : ¬ (L = "Greenplum".data ∨ L = "greenplum".data) := by
      rintro (e | e)
      · exact b e
      · exact a e
    have h2 : ¬ (L = "Cloudberry".data ∨ L = "cloudberry".data) := by
      rintro (e | e)
      · exact d e
      · exact c e
    rw [if_neg h1, if_neg h2]

theorem parseType_greenplum (L : List Char)
    (h : L = "greenplum".data ∨ L = "Greenplum".data) : parseType L = some Greenplum := by
  unfold parseType
  rw [if_pos (Or.symm h)]

theorem parseType_cloudberry (L : List Char)
    (h : L = "cloudberry".data ∨ L = "Cloudberry".data) : parseType L = some Cloudberry := by
  unfold parseType
  have h1 : ¬ (L = "Greenplum".data ∨ L = "greenplum".data) := by
    rintro (e | e) <;> rcases h with h | h <;> rw [h] at e <;> exact absurd e (by decide)
  rw [if_neg h1, if_pos (Or.symm h)]

theorem ToLower_ascii (t : CaseTable) (l : List Char) (h : ∀ c ∈ l, c.toNat < 128) :
    strings.ToLower t l = l.map Char.toLower := by
  unfold strings.ToLower
  apply List.map_congr_left
  intro c hc
  simp [strings.toLowerRune, h c hc]

theorem toLower_not_capital (c : Char) : c.toLower ≠ 'G' ∧ c.toLower ≠ 'C' := by
  by_cases hr : 65 ≤ c.toNat ∧ c.toNat ≤ 90
  · obtain ⟨h1, h2⟩ := hr
    have hc : c = Char.ofNat c.toNat := (Char.ofNat_toNat c).symm
    generalize c.toNat = n at h1 h2 hc
    subst hc
    interval_cases n <;> decide
  · have e : c.toLower = c := by
      unfold Char.toLower
      simp only
      rw [if_neg]
      simpa using hr
    rw [e]
    constructor
    · intro h
      subst h
      exact hr (by decide)
    · intro h
      subst h
      exact hr (by decide)

theorem map_toLower_not_capital (l : List Char) :
    l.map Char.toLower ≠ "Greenplum".data ∧ l.map Char.toLower ≠ "Cloudberry".data := by
  cases l with
  | nil => exact ⟨by decide, by decide⟩
  | cons x xs =>
    have hx := toLower_not_capital x
    constructor
    · intro h
      have : x.toLower = 'G' := by
        have := congrArg List.head? h
        simpa using this
      exact hx.1 this
    · intro h
      have : x.toLower = 'C' := by
        have := congrArg List.head? h
        simpa using this
      exact hx.2 this

/-- C14: the three failures of `ParseDatabaseVersion` and their order. With
`ts` the trimmed input: (1) the invalid-format error is returned exactly when
`ts` has no space. (2) When `ts` is `p0`, a space and `p1`, with no space in
`p0`, the unknown-type error is returned, whatever `p1` is, exactly when the
lower-cased trimmed `p0` is none of the literals `greenplum`, `Greenplum`,
`cloudberry`, `Cloudberry` of the `switch`; for an ASCII `p0` that is exactly
when `p0` with its capital letters made small is neither `greenplum` nor
`cloudberry`. (3) When the lower-cased `p0` is `greenplum` (family Greenplum)
or `cloudberry` (family Cloudberry), the invalid-version error is returned
exactly when the tolerant parser rejects the trimmed `p1`, and otherwise the
call succeeds with that family and the parsed version. Every failure comes with
the zero `DatabaseVersion`. -/
theorem ParseDatabaseVersion_failures (q : Fmt) (t : CaseTable) (s : String) :
    (startsWith "invalid database version format: " (ParseDatabaseVersion q t s).2 ↔
      ' ' ∉ strings.TrimSpace s.data) ∧
    (∀ p0 p1, strings.TrimSpace s.data = p0 ++ ' ' :: p1 → ' ' ∉ p0 →
      (startsWith "unknown database type: " (ParseDatabaseVersion q t s).2 ↔
        strings.ToLower t (strings.TrimSpace p0) ≠ "greenplum".data ∧
        strings.ToLower t (strings.TrimSpace p0) ≠ "Greenplum".data ∧
        strings.ToLower t (strings.TrimSpace p0) ≠ "cloudberry".data ∧
        strings.ToLower t (strings.TrimSpace p0) ≠ "Cloudberry".data) ∧
      ((∀ c ∈ strings.TrimSpace p0, c.toNat < 128) →
        (startsWith "unknown database type: " (ParseDatabaseVersion q t s).2 ↔
          (strings.TrimSpace p0).map Char.toLower ≠ "greenplum".data ∧
          (strings.TrimSpace p0).map Char.toLower ≠ "cloudberry".data)) ∧
      (∀ ty,
        (ty = Greenplum ∧ (strings.ToLower t (strings.TrimSpace p0) = "greenplum".data ∨
            strings.ToLower t (strings.TrimSpace p0) = "Greenplum".data)) ∨
        (ty = Cloudberry ∧ (strings.ToLower t (strings.TrimSpace p0) = "cloudberry".data ∨
            strings.ToLower t (strings.TrimSpace p0) = "Cloudberry".data)) →
        (startsWith "invalid version format " (ParseDatabaseVersion q t s).2 ↔
          ∃ err, semver.ParseTolerant q (strings.TrimSpace p1) = .error err) ∧
        (∀ v, semver.ParseTolerant q (strings.TrimSpace p1) = .ok v →
          ParseDatabaseVersion q t s = (⟨ty, v⟩, none)))) ∧
    ((ParseDatabaseVersion q t s).2 ≠ none →
      (ParseDatabaseVersion q t s).1 = zeroDatabaseVersion) := by
  -- the shape of the result once the trimmed input has a first space
  have shape : ∀ p0 p1, strings.TrimSpace s.data = p0 ++ ' ' :: p1 → ' ' ∉ p0 →
      (parseType (strings.ToLower t (strings.TrimSpace p0)) = none ∧
        ParseDatabaseVersion q t s = (zeroDatabaseVersion,
          some ("unknown database type: " ++ String.mk (strings.TrimSpace p0)))) ∨
      (∃ ty err, parseType (strings.ToLower t (strings.TrimSpace p0)) = some ty ∧
        semver.ParseTolerant q (strings.TrimSpace p1) = .error err ∧
        ParseDatabaseVersion q t s = (zeroDatabaseVersion,
          some ("invalid version format " ++
            (q.quote (String.mk (strings.TrimSpace p1)) ++ ": " ++ err)))) ∨
      (∃ ty v, parseType (strings.ToLower t (strings.TrimSpace p0)) = some ty ∧
        semver.ParseTolerant q (strings.TrimSpace p1) = .ok v ∧
        ParseDatabaseVersion q t s = (⟨ty, v⟩, none)) := by
    intro p0 p1 hs h
    cases hty : parseType (strings.ToLower t (strings.TrimSpace p0)) with
    | none => exact Or.inl ⟨rfl, ParseDatabaseVersion_unknown q t s p0 p1 hs h hty⟩
    | some ty =>
      cases hv : semver.ParseTolerant q (strings.TrimSpace p1) with
      | error err =>
        refine Or.inr (Or.inl ⟨ty, err, rfl, rfl, ?_⟩)
        rw [ParseDatabaseVersion_bad_version q t s p0 p1 ty err hs h hty hv]
        simp [String.append_assoc]
      | ok v => exact Or.inr (Or.inr ⟨ty, v, rfl, rfl,
          ParseDatabaseVersion_good q t s p0 p1 ty v hs h hty hv⟩)
  -- the unknown-type error in terms of the `switch`
  have unknown_iff : ∀ p0 p1, strings.TrimSpace s.data = p0 ++ ' ' :: p1 → ' ' ∉ p0 →
      (startsWith "unknown database type: " (ParseDatabaseVersion q t s).2 ↔
        parseType (strings.ToLower t (strings.TrimSpace p0)) = none) := by
    intro p0 p1 hs h
    constructor
    · intro hst
      rcases shape p0 p1 hs h with ⟨hty, _⟩ | ⟨_, _, _, _, e⟩ | ⟨_, _, _, _, e⟩
      · exact hty
      · rw [e] at hst
        exact absurd hst (not_unknown_of_version _)
      · rw [e] at hst
        exact absurd hst (startsWith_none _)
    · intro hty
      rw [ParseDatabaseVersion_unknown q t s p0 p1 hs h hty]
      exact startsWith_self _ _
  refine ⟨⟨?_, ?_⟩, ?_, ?_⟩
  · intro hst hmem
    obtain ⟨p0, p1, hs, h⟩ := strings.exists_first_split ' ' _ (by simpa using hmem)
    rcases shape p0 p1 hs h with ⟨_, e⟩ | ⟨_, _, _, _, e⟩ | ⟨_, _, _, _, e⟩ <;>
      rw [e] at hst
    · exact not_format_of_unknown _ hst
    · exact not_format_of_version _ hst
    · exact startsWith_none _ hst
  · intro h
    rw [ParseDatabaseVersion_no_space q t s h]
    exact startsWith_append _ (startsWith_self _ _)
  · intro p0 p1 hs h
    refine ⟨?_, ?_, ?_⟩
    · rw [unknown_iff p0 p1 hs h, parseType_eq_none_iff]
    · intro hascii
      rw [unknown_iff p0 p1 hs h, parseType_eq_none_iff, ToLower_ascii t _ hascii]
      have hcap := map_toLower_not_capital (strings.TrimSpace p0)
      constructor
      · rintro ⟨a, _, c, _⟩
        exact ⟨a, c⟩
      · rintro ⟨a, c⟩
        exact ⟨a, hcap.1, c, hcap.2⟩
    · intro ty hfam
      have hty : parseType (strings.ToLower t (strings.TrimSpace p0)) = some ty := by
        rcases hfam with ⟨rfl, hL⟩ | ⟨rfl, hL⟩
        · exact parseType_greenplum _ hL
        · exact parseType_cloudberry _ hL
      refine ⟨⟨?_, ?_⟩, ?_⟩
      · intro hst
        rcases shape p0 p1 hs h with ⟨_, e⟩ | ⟨_, err, _, hv, _⟩ | ⟨_, _, _, _, e⟩
        · rw [e] at hst
          exact absurd hst (not_version_of_unknown _)
        · exact ⟨err, hv⟩
        · rw [e] at hst
          exact absurd hst (startsWith_none _)
      · rintro ⟨err, hv⟩
        rw [ParseDatabaseVersion_bad_version q t s p0 p1 ty err hs h hty hv]
        exact startsWith_append _ (startsWith_append _ (startsWith_self _ _))
      · intro v hv
        exact ParseDatabaseVersion_good q t s p0 p1 ty v hs h hty hv
  · intro hne
    by_cases hmem : ' ' ∈ strings.TrimSpace s.data
    · obtain ⟨p0, p1, hs, h⟩ := strings.exists_first_split ' ' _ hmem
      rcases shape p0 p1 hs h with ⟨_, e⟩ | ⟨_, _, _, _, e⟩ | ⟨_, _, _, _, e⟩
      · rw [e]
      · rw [e]
      · rw [e] at hne
        exact absurd rfl hne
    · rw [ParseDatabaseVersion_no_space q t s hmem]

/-- Witness of `ParseDatabaseVersion_failures`: `Foo notaversion` reports the
unknown type, not the bad version; `GREENPLUM 1.x` has a recognised type and
reports the bad version; `GREENPLUM 6.3` succeeds with family Greenplum. -/
theorem ParseDatabaseVersion_failures_witness :
    strings.TrimSpace "Foo notaversion".data = "Foo".data ++ ' ' :: "notaversion".data ∧
    (strings.TrimSpace "Foo".data).map Char.toLower = "foo".data ∧
    startsWith "unknown database type: "
      (ParseDatabaseVersion plainFmt plainCase "Foo notaversion").2 ∧
    strings.TrimSpace "GREENPLUM 1.x".data = "GREENPLUM".data ++ ' ' :: "1.x".data ∧
    startsWith "invalid version format "
      (ParseDatabaseVersion plainFmt plainCase "GREENPLUM 1.x").2 ∧
    ParseDatabaseVersion plainFmt plainCase "GREENPLUM 6.3" =
      (⟨Greenplum, plain 6 3 0⟩, none) :=
  ⟨by decide, by decide,
    (((ParseDatabaseVersion_failures plainFmt plainCase "Foo notaversion").2.1
      "Foo".data "notaversion".data (by decide) (by decide)).2.1 (by decide)).2
        ⟨by decide, by decide⟩,
    by decide,
    (((ParseDatabaseVersion_failures plainFmt plainCase "GREENPLUM 1.x").2.1
      "GREENPLUM".data "1.x".data (by decide) (by decide)).2.2 Greenplum
        (Or.inl ⟨rfl, Or.inl (by decide)⟩)).1.2 ⟨_, rfl⟩,
    (((ParseDatabaseVersion_failures plainFmt plainCase "GREENPLUM 6.3").2.1
      "GREENPLUM".data "6.3".data (by decide) (by decide)).2.2 Greenplum
        (Or.inl ⟨rfl, Or.inl (by decide)⟩)).2 (plain 6 3 0) rfl⟩

end greenplum
